import Mathlib

/-!
# libriff: a shallow embedding of `src/riff.c`

The session (`riff_handle`) is a record that is passed through every operation;
an operation of the C code that returns an `int` and mutates the handle becomes
a function `riff_handle → Int × riff_handle`.

Conventions of the embedding.

* `size_t` is 64 bits wide (the code shifts a `size_t` by 32 bits when it reads
  the `ds64` chunk).  A `size_t` value is a `Nat`; every sum and difference the
  code computes in `size_t` is reduced modulo `2^64` (`add64`, `sub64`).
* A byte is a `Fin 256`; a four character code is four bytes.
* The level stack `rh->ls[0 .. ls_level)` is a list whose head is the top frame
  `rh->ls[ls_level - 1]`; `ls_level` is the length of that list.  The capacity
  `ls_size` and the reallocation in `stack_push` do not influence any value the
  code reads later and are not part of the record.
* The I/O capability is the `FILE` backend of the source (`read_file`,
  `seek_file`): the stream content `fh` and the stream position `fpos`.  A read
  delivers the bytes that are left, at most as many as asked for, and advances
  the stream position by the number of bytes delivered; a seek sets the
  stream position.  The memory backend behaves like this channel whenever the
  stream position equals the tracked position `pos` and the read is in bounds.
* `fp_printf` only writes diagnostics and is left out.
* A handle is never `NULL`, so `checkValidRiffHandle` never returns.
-/

namespace Riff

/-- One byte of the stream. -/
abbrev Byte := Fin 256

/-- Sum of two `size_t` values. -/
def add64 (a b : Nat) : Nat := (a + b) % 2 ^ 64

/-- Difference of two `size_t` values. -/
def sub64 (a b : Nat) : Nat := (a % 2 ^ 64 + (2 ^ 64 - b % 2 ^ 64)) % 2 ^ 64

/-- Four character code (`char[4]`). -/
structure FourCC where
  b0 : Byte
  b1 : Byte
  b2 : Byte
  b3 : Byte
deriving DecidableEq, Repr

/-- The tag "RIFF". -/
def tagRIFF : FourCC := ⟨0x52, 0x49, 0x46, 0x46⟩
/-- The tag "BW64". -/
def tagBW64 : FourCC := ⟨0x42, 0x57, 0x36, 0x34⟩
/-- The tag "LIST". -/
def tagLIST : FourCC := ⟨0x4C, 0x49, 0x53, 0x54⟩
/-- The tag "ds64". -/
def tagDs64 : FourCC := ⟨0x64, 0x73, 0x36, 0x34⟩
/-- Four zero bytes, the content of a `calloc`ed tag. -/
def tagZero : FourCC := ⟨0, 0, 0, 0⟩

/-- Modelled from the spec: `riff.h` (the macros `RIFF_ERROR_*`, `RIFF_HEADER_SIZE`,
`RIFF_CHUNK_DATA_OFFSET` and the two struct declarations) is not among the sources.
The numbering of the error codes is the one the table `riff_es` of `riff.c`
documents index by index. -/
abbrev RIFF_ERROR_NONE : Int := 0
/-- Modelled from the spec: `EndOfChunk`, entry 1 of `riff_es`. -/
abbrev RIFF_ERROR_EOC : Int := 1
/-- Modelled from the spec: `EndOfList`, entry 2 of `riff_es`. -/
abbrev RIFF_ERROR_EOCL : Int := 2
/-- Modelled from the spec: `ExcessBytes` / `SizeMismatch`, entry 3 of `riff_es`. -/
abbrev RIFF_ERROR_EXDAT : Int := 3
/-- Modelled from the spec: `InvalidTag`, entry 4 of `riff_es`. -/
abbrev RIFF_ERROR_ILLID : Int := 4
/-- Modelled from the spec: `ChunkExceedsBounds`, entry 5 of `riff_es`. -/
abbrev RIFF_ERROR_ICSIZE : Int := 5
/-- Modelled from the spec: `UnexpectedEof`, entry 6 of `riff_es`. -/
abbrev RIFF_ERROR_EOF : Int := 6
/-- Modelled from the spec: the outer header is 12 bytes long. -/
abbrev RIFF_HEADER_SIZE : Nat := 12
/-- Modelled from the spec: the payload of a chunk starts 8 bytes after its header
position. -/
abbrev RIFF_CHUNK_DATA_OFFSET : Nat := 8

/-- Modelled from the spec: one saved frame `{id, type, size, data_start}` of the
level stack (`struct riff_levelStackE` of `riff.h`). -/
structure riff_levelStackE where
  c_id : FourCC
  c_size : Nat
  c_pos_start : Nat
  c_type : FourCC
deriving DecidableEq, Repr

/-- Modelled from the spec: the session record (`struct riff_handle` of `riff.h`),
with the fields `riff.c` reads and writes. -/
structure riff_handle where
  h_id : FourCC
  h_size : Nat
  h_type : FourCC
  pos_start : Nat
  size : Nat
  pos : Nat
  c_pos_start : Nat
  c_pos : Nat
  c_id : FourCC
  c_size : Nat
  pad : Nat
  ls : List riff_levelStackE
  fh : List Byte
  fpos : Nat
deriving DecidableEq, Repr

/-- `read_file`: `fread(ptr, 1, size, fh)`; the bytes delivered and the handle
with the stream advanced. -/
def read_file (rh : riff_handle) (size : Nat) : List Byte × riff_handle :=
  let got := (rh.fh.drop rh.fpos).take size
  (got, { rh with fpos := rh.fpos + got.length })

/-- `seek_file`: `fseek(fh, pos, SEEK_SET)`. -/
def seek_file (rh : riff_handle) (pos : Nat) : riff_handle :=
  { rh with fpos := pos }

/-- `convUInt32LE`: four bytes, little endian, as a `uint32_t`. -/
def convUInt32LE (c0 c1 c2 c3 : Byte) : Nat :=
  (c0.val ||| (c1.val <<< 8) ||| (c2.val <<< 16) ||| (c3.val <<< 24)) % 2 ^ 32

/-- The test `c < 0x20 || c > 0x7e` of the two tag loops.  A byte above `0x7f`
fails it whether `char` is signed (first disjunct) or unsigned (second). -/
def illegalChar (c : Byte) : Bool :=
  c.val < 0x20 || c.val > 0x7e

/-- The loop `for(i = 0; i < 4; i++)` over a tag: some character is illegal. -/
def illegalTag (t : FourCC) : Bool :=
  illegalChar t.b0 || illegalChar t.b1 || illegalChar t.b2 || illegalChar t.b3

/-- `riff_readChunkHeader` (riff.c 150-209). -/
def riff_readChunkHeader (rh : riff_handle) : Int × riff_handle :=
  match read_file rh 8 with
  | ([a0, a1, a2, a3, s0, s1, s2, s3], rh) =>
    let rh := { rh with c_pos_start := rh.pos }
    let rh := { rh with pos := add64 rh.pos 8 }
    let rh := { rh with c_id := ⟨a0, a1, a2, a3⟩ }
    let rh := { rh with c_size := convUInt32LE s0 s1 s2 s3 }
    let rh := { rh with pad := rh.c_size &&& 1 }
    let rh := { rh with c_pos := 0 }
    if illegalTag rh.c_id then (RIFF_ERROR_ILLID, rh)
    else
      let cposend :=
        add64 (add64 (add64 rh.c_pos_start RIFF_CHUNK_DATA_OFFSET) rh.c_size) rh.pad
      let listend :=
        match rh.ls with
        | ls :: _ => add64 (add64 ls.c_pos_start RIFF_CHUNK_DATA_OFFSET) ls.c_size
        | [] => add64 (add64 rh.pos_start RIFF_CHUNK_DATA_OFFSET) rh.h_size
      if cposend > listend then (RIFF_ERROR_ICSIZE, rh)
      else if rh.size > 0 ∧ cposend > rh.size then (RIFF_ERROR_EOF, rh)
      else (RIFF_ERROR_NONE, rh)
  | (_, rh) => (RIFF_ERROR_EOF, rh)

/-- `stack_pop` (riff.c 215-228). -/
def stack_pop (rh : riff_handle) : riff_handle :=
  match rh.ls with
  | [] => rh
  | ls :: rest =>
    let rh := { rh with ls := rest }
    let rh := { rh with c_pos_start := ls.c_pos_start }
    let rh := { rh with c_id := ls.c_id }
    let rh := { rh with c_size := ls.c_size }
    let rh := { rh with pad := rh.c_size &&& 1 }
    { rh with c_pos := sub64 (sub64 rh.pos rh.c_pos_start) RIFF_CHUNK_DATA_OFFSET }

/-- `stack_push` (riff.c 233-261). -/
def stack_push (rh : riff_handle) (type : FourCC) : riff_handle :=
  { rh with ls := ⟨rh.c_id, rh.c_size, rh.c_pos_start, type⟩ :: rh.ls }

/-- `riff_readInChunk` (riff.c 372-380): the bytes copied to the caller (their
number is the return value) and the new handle. -/
def riff_readInChunk (rh : riff_handle) (size : Nat) : List Byte × riff_handle :=
  let left := sub64 rh.c_size rh.c_pos
  let size := if left < size then left else size
  match read_file rh size with
  | (got, rh) =>
    let rh := { rh with pos := add64 rh.pos got.length }
    let rh := { rh with c_pos := add64 rh.c_pos got.length }
    (got, rh)

/-- `riff_seekInChunk` (riff.c 386-396). -/
def riff_seekInChunk (rh : riff_handle) (c_pos : Nat) : Int × riff_handle :=
  if c_pos > rh.c_size then (RIFF_ERROR_EOC, rh)
  else
    let rh := { rh with pos := add64 (add64 rh.c_pos_start RIFF_CHUNK_DATA_OFFSET) c_pos }
    let rh := { rh with c_pos := c_pos }
    let rh := seek_file rh rh.pos
    (RIFF_ERROR_NONE, rh)

/-- `riff_seekNextChunk` (riff.c 401-433). -/
def riff_seekNextChunk (rh : riff_handle) : Int × riff_handle :=
  let posnew :=
    add64 (add64 (add64 rh.c_pos_start RIFF_CHUNK_DATA_OFFSET) rh.c_size) rh.pad
  let listend :=
    match rh.ls with
    | ls :: _ => add64 (add64 ls.c_pos_start RIFF_CHUNK_DATA_OFFSET) ls.c_size
    | [] => add64 (add64 rh.pos_start RIFF_CHUNK_DATA_OFFSET) rh.h_size
  if listend < add64 posnew RIFF_CHUNK_DATA_OFFSET then
    if listend > posnew then (RIFF_ERROR_EXDAT, rh)
    else (RIFF_ERROR_EOCL, rh)
  else
    let rh := { rh with pos := posnew }
    let rh := { rh with c_pos := 0 }
    let rh := seek_file rh posnew
    riff_readChunkHeader rh

/-- `riff_seekChunkStart` (riff.c 437-445). -/
def riff_seekChunkStart (rh : riff_handle) : Int × riff_handle :=
  let rh := { rh with pos := add64 rh.c_pos_start RIFF_CHUNK_DATA_OFFSET }
  let rh := { rh with c_pos := 0 }
  let rh := seek_file rh rh.pos
  (RIFF_ERROR_NONE, rh)

/-- `riff_seekLevelStart` (riff.c 460-478). -/
def riff_seekLevelStart (rh : riff_handle) : Int × riff_handle :=
  let rh :=
    match rh.ls with
    | ls :: _ => { rh with pos := ls.c_pos_start }
    | [] => { rh with pos := rh.pos_start }
  let rh := { rh with pos := add64 rh.pos (RIFF_CHUNK_DATA_OFFSET + 4) }
  let rh := { rh with c_pos := 0 }
  let rh := seek_file rh rh.pos
  riff_readChunkHeader rh

/-- The loop `while(rh->ls_level > 0) stack_pop(rh);` of `riff_rewind`, with a
bound on the number of iterations. -/
def rewindLoop : Nat → riff_handle → riff_handle
  | 0, rh => rh
  | n + 1, rh => if rh.ls.length > 0 then rewindLoop n (stack_pop rh) else rh

/-- `riff_rewind` (riff.c 449-457).  Each iteration of the loop removes one
frame, so `ls_level` iterations are all there are. -/
def riff_rewind (rh : riff_handle) : Int × riff_handle :=
  riff_seekLevelStart (rewindLoop rh.ls.length rh)

/-- The buffer `char type[5] = ""` after `fp_read(rh, type, 4)`: the bytes
delivered, followed by the zero bytes of the initialisation. -/
def typeBuf (got : List Byte) : FourCC :=
  ⟨got.getD 0 0, got.getD 1 0, got.getD 2 0, got.getD 3 0⟩

/-- The test of `riff_seekLevelSub` and `riff_recursiveLevelValidate`: the tag
is none of "LIST", "RIFF", "BW64". -/
def notListTag (t : FourCC) : Bool :=
  t ≠ tagLIST && t ≠ tagRIFF && t ≠ tagBW64

/-- `riff_seekLevelSub` (riff.c 483-525). -/
def riff_seekLevelSub (rh : riff_handle) : Int × riff_handle :=
  if notListTag rh.c_id then (RIFF_ERROR_ILLID, rh)
  else if rh.c_size < 4 then (RIFF_ERROR_ICSIZE, rh)
  else
    let rh :=
      if rh.c_pos > 0 then
        let rh := seek_file rh (add64 rh.c_pos_start RIFF_CHUNK_DATA_OFFSET)
        let rh := { rh with pos := add64 rh.c_pos_start RIFF_CHUNK_DATA_OFFSET }
        { rh with c_pos := 0 }
      else rh
    match read_file rh 4 with
    | (got, rh) =>
      let type := typeBuf got
      let rh := { rh with pos := add64 rh.pos 4 }
      if illegalTag type then (RIFF_ERROR_ILLID, rh)
      else
        let rh := stack_push rh type
        riff_readChunkHeader rh

/-- `riff_levelParent` (riff.c 530-537). -/
def riff_levelParent (rh : riff_handle) : Int × riff_handle :=
  if rh.ls.length ≤ 0 then (-1, rh)
  else (RIFF_ERROR_NONE, stack_pop rh)

/-- `riff_recursiveLevelValidate` (riff.c 583-601).  One unit of fuel pays for
one iteration of the `while (1)` loop; the nested call runs on what is left.
`none` means the fuel ran out. -/
def riff_recursiveLevelValidate : Nat → riff_handle → Option (Int × riff_handle)
  | 0, _ => none
  | fuel + 1, rh =>
    match riff_seekNextChunk rh with
    | (r, rh) =>
      if r ≠ RIFF_ERROR_NONE then
        if r = RIFF_ERROR_EOCL then some (riff_levelParent rh)
        else some (r, rh)
      else if !(notListTag rh.c_id) then
        match riff_seekLevelSub rh with
        | (r, rh) =>
          if r ≠ RIFF_ERROR_NONE then some (r, rh)
          else
            match riff_recursiveLevelValidate fuel rh with
            | none => none
            | some (r, rh) =>
              if r ≠ RIFF_ERROR_NONE then some (r, rh)
              else riff_recursiveLevelValidate fuel rh
      else riff_recursiveLevelValidate fuel rh

/-- `riff_fileValidate` (riff.c 603-613). -/
def riff_fileValidate (fuel : Nat) (rh : riff_handle) : Option (Int × riff_handle) :=
  match riff_rewind rh with
  | (r, rh) =>
    if r ≠ RIFF_ERROR_NONE then some (r, rh)
    else riff_recursiveLevelValidate fuel rh

/-- `riff_readHeader` (riff.c 293-359). -/
def riff_readHeader (rh : riff_handle) : Int × riff_handle :=
  match read_file rh RIFF_HEADER_SIZE with
  | (buf, rh) =>
    let rh := { rh with pos := add64 rh.pos buf.length }
    match buf with
    | [i0, i1, i2, i3, s0, s1, s2, s3, t0, t1, t2, t3] =>
      let rh := { rh with h_id := ⟨i0, i1, i2, i3⟩ }
      let rh := { rh with h_size := convUInt32LE s0 s1 s2 s3 }
      let rh := { rh with h_type := ⟨t0, t1, t2, t3⟩ }
      if rh.h_id ≠ tagRIFF ∧ rh.h_id ≠ tagBW64 then (RIFF_ERROR_ILLID, rh)
      else
        match riff_readChunkHeader rh with
        | (r, rh) =>
          if r ≠ RIFF_ERROR_NONE then (r, rh)
          else
            let compare (rh : riff_handle) : Int × riff_handle :=
              if rh.size ≠ 0 then
                if rh.size ≠ add64 rh.h_size RIFF_CHUNK_DATA_OFFSET then
                  if rh.size ≥ add64 rh.h_size RIFF_CHUNK_DATA_OFFSET then (RIFF_ERROR_EXDAT, rh)
                  else (RIFF_ERROR_EOF, rh)
                else (RIFF_ERROR_NONE, rh)
              else (RIFF_ERROR_NONE, rh)
            if rh.h_size = 0xFFFFFFFF ∧ rh.c_id = tagDs64 then
              match riff_readInChunk rh 8 with
              | ([l0, l1, l2, l3, u0, u1, u2, u3], rh) =>
                let rh := { rh with
                  h_size := ((convUInt32LE u0 u1 u2 u3 <<< 32) % 2 ^ 64) ||| convUInt32LE l0 l1 l2 l3 }
                compare rh
              | (_, rh) => (RIFF_ERROR_ICSIZE, rh)
            else compare rh
    | _ => (RIFF_ERROR_EOF, rh)

/-- `riff_handleAllocate`: the `calloc`ed handle, every field zero. -/
def riff_handleAllocate : riff_handle :=
  { h_id := tagZero, h_size := 0, h_type := tagZero, pos_start := 0, size := 0, pos := 0,
    c_pos_start := 0, c_pos := 0, c_id := tagZero, c_size := 0, pad := 0, ls := [],
    fh := [], fpos := 0 }

/-- `riff_open_file` (riff.c 79-89): `f` is the content of the stream, `ftell`
its position at the call, `size` the expected size (0: unknown). -/
def riff_open_file (rh : riff_handle) (f : List Byte) (ftell : Nat) (size : Nat) :
    Int × riff_handle :=
  let rh := { rh with fh := f, fpos := ftell }
  let rh := { rh with size := size }
  let rh := { rh with pos_start := ftell }
  riff_readHeader rh

/-! ## Vocabulary of the statements -/

/-- The end of the enclosing list as `riff_readChunkHeader` and
`riff_seekNextChunk` compute it (`listend`): the end of the top frame when the
depth is positive, the end of the outer chunk at depth 0. -/
def enclosingBound (rh : riff_handle) : Nat :=
  match rh.ls with
  | f :: _ => add64 (add64 f.c_pos_start 8) f.c_size
  | [] => add64 (add64 rh.pos_start 8) rh.h_size

/-- The end of the enclosing list in unbounded arithmetic. -/
def enclosingBoundNat (rh : riff_handle) : Nat :=
  match rh.ls with
  | f :: _ => f.c_pos_start + 8 + f.c_size
  | [] => rh.pos_start + 8 + rh.h_size

/-- The handle `riff_readChunkHeader` leaves behind after it has read the eight
header bytes `a0 .. a3` (tag) and `s0 .. s3` (size). -/
def headerState (rh : riff_handle) (a0 a1 a2 a3 s0 s1 s2 s3 : Byte) : riff_handle :=
  { rh with
    fpos := rh.fpos + 8
    c_pos_start := rh.pos
    pos := add64 rh.pos 8
    c_id := ⟨a0, a1, a2, a3⟩
    c_size := convUInt32LE s0 s1 s2 s3
    pad := convUInt32LE s0 s1 s2 s3 &&& 1
    c_pos := 0 }

/-- The tag "INFO". -/
def tagINFO : FourCC := ⟨0x49, 0x4E, 0x46, 0x4F⟩

/-- A session inside a "LIST" chunk of size 20 that starts at offset 12; the
cursor is at offset 24, where a header "data" declares the size `0xFFFFFFF0`. -/
def exOversized : riff_handle :=
  { riff_handleAllocate with
    h_id := tagRIFF, h_size := 28, pos := 24, fpos := 24,
    c_id := tagLIST, c_size := 20, c_pos_start := 12, c_pos := 4,
    ls := [⟨tagLIST, 20, 12, tagINFO⟩],
    fh := [0x52, 0x49, 0x46, 0x46, 28, 0, 0, 0, 0x57, 0x41, 0x56, 0x45,
           0x4C, 0x49, 0x53, 0x54, 20, 0, 0, 0, 0x49, 0x4E, 0x46, 0x4F,
           0x64, 0x61, 0x74, 0x61, 0xF0, 0xFF, 0xFF, 0xFF,
           0, 0, 0, 0] }

/-- A session at depth 0 whose cursor is at a header with the tag bytes
`64 07 74 61`; the declared size, 4, fits. -/
def exBadTag : riff_handle :=
  { riff_handleAllocate with
    h_id := tagRIFF, h_size := 16, pos := 12, fpos := 12,
    fh := [0x52, 0x49, 0x46, 0x46, 16, 0, 0, 0, 0x57, 0x41, 0x56, 0x45,
           0x64, 0x07, 0x74, 0x61, 4, 0, 0, 0, 1, 2, 3, 4] }

/-- The position at which `riff_seekNextChunk` expects the next header
(`posnew`): data start + size + pad byte of the current chunk. -/
def nextHeaderPos (rh : riff_handle) : Nat :=
  add64 (add64 (add64 rh.c_pos_start 8) rh.c_size) rh.pad

/-- The handle at the moment `riff_seekLevelSub` reads the type tag: moved to
the data start of the chunk when the offset in the chunk was positive. -/
def subStart (rh : riff_handle) : riff_handle :=
  if rh.c_pos > 0 then
    { rh with fpos := add64 rh.c_pos_start 8, pos := add64 rh.c_pos_start 8, c_pos := 0 }
  else rh

/-- The 36 byte stream "RIFF" 28 "WAVE" "fmt " 16, then 16 zero bytes. -/
def exWave : List Byte :=
  [0x52, 0x49, 0x46, 0x46, 28, 0, 0, 0, 0x57, 0x41, 0x56, 0x45,
   0x66, 0x6D, 0x74, 0x20, 16, 0, 0, 0,
   0, 0, 0, 0, 0, 0, 0, 0, 0, 0, 0, 0, 0, 0, 0, 0]

/-- The session after `riff_open_file` on `exWave` (stream at 0, size unknown). -/
def exWaveOpen : riff_handle := (riff_open_file riff_handleAllocate exWave 0 0).2

/-- The 36 byte stream "RIFF" 32 "WAVE" "LIST" 20 "INFO" "data" 4 01 02 03 04:
the first chunk is a list with one child; the two declared sizes 32 and 20
count four bytes beyond the end of the stream. -/
def exList : List Byte :=
  [0x52, 0x49, 0x46, 0x46, 32, 0, 0, 0, 0x57, 0x41, 0x56, 0x45,
   0x4C, 0x49, 0x53, 0x54, 20, 0, 0, 0, 0x49, 0x4E, 0x46, 0x4F,
   0x64, 0x61, 0x74, 0x61, 4, 0, 0, 0, 1, 2, 3, 4]

/-- The session after `riff_open_file` on `exList`. -/
def exListOpen : riff_handle := (riff_open_file riff_handleAllocate exList 0 0).2

/-- The 28 byte stream "BW64" FF FF FF FF "WAVE" "ds64" 8, then the two 32 bit
halves 20 and 0 of the 64 bit size. -/
def exDs64 : List Byte :=
  [0x42, 0x57, 0x36, 0x34, 0xFF, 0xFF, 0xFF, 0xFF, 0x57, 0x41, 0x56, 0x45,
   0x64, 0x73, 0x36, 0x34, 8, 0, 0, 0,
   20, 0, 0, 0, 0, 0, 0, 0]

/-- The session after `riff_open_file` on `exDs64`. -/
def exDs64Open : riff_handle := (riff_open_file riff_handleAllocate exDs64 0 0).2

/-- The 32 byte stream "RIFF" 24 "WAVE" "LIST" 12 "INFO", then a child header
with the tag bytes 01 02 03 04 and size 0: the list is the first chunk of the
file and its only child has an unprintable tag. -/
def exFirstList : List Byte :=
  [0x52, 0x49, 0x46, 0x46, 24, 0, 0, 0, 0x57, 0x41, 0x56, 0x45,
   0x4C, 0x49, 0x53, 0x54, 12, 0, 0, 0, 0x49, 0x4E, 0x46, 0x4F,
   1, 2, 3, 4, 0, 0, 0, 0]

/-- The session after `riff_open_file` on `exFirstList`. -/
def exFirstListOpen : riff_handle := (riff_open_file riff_handleAllocate exFirstList 0 0).2

/-- The stream `exFirstList` with an empty "fmt " chunk put in front of the
list, so that the same list is the second chunk of the file. -/
def exSecondList : List Byte :=
  [0x52, 0x49, 0x46, 0x46, 32, 0, 0, 0, 0x57, 0x41, 0x56, 0x45,
   0x66, 0x6D, 0x74, 0x20, 0, 0, 0, 0,
   0x4C, 0x49, 0x53, 0x54, 12, 0, 0, 0, 0x49, 0x4E, 0x46, 0x4F,
   1, 2, 3, 4, 0, 0, 0, 0]

/-- The session after `riff_open_file` on `exSecondList`. -/
def exSecondListOpen : riff_handle := (riff_open_file riff_handleAllocate exSecondList 0 0).2

/-! ## The composite operations, the level validator and the counters -/

/-- `riff_seekLevelParentStart` (riff.c 540-546). -/
def riff_seekLevelParentStart (rh : riff_handle) : Int × riff_handle :=
  match riff_levelParent rh with
  | (r, rh) => if r ≠ RIFF_ERROR_NONE then (r, rh) else riff_seekChunkStart rh

/-- `riff_seekLevelParentNext` (riff.c 549-555). -/
def riff_seekLevelParentNext (rh : riff_handle) : Int × riff_handle :=
  match riff_levelParent rh with
  | (r, rh) => if r ≠ RIFF_ERROR_NONE then (r, rh) else riff_seekNextChunk rh

/-- The loop `while(1)` of `riff_levelValidate`; one unit of fuel pays for one
iteration, `none` means the fuel ran out. -/
def levelValidateLoop : Nat → riff_handle → Option (Int × riff_handle)
  | 0, _ => none
  | fuel + 1, rh =>
    match riff_seekNextChunk rh with
    | (r, rh) =>
      if r ≠ RIFF_ERROR_NONE then
        if r = RIFF_ERROR_EOCL then some (RIFF_ERROR_NONE, rh)
        else some (r, rh)
      else levelValidateLoop fuel rh

/-- `riff_levelValidate` (riff.c 559-578). -/
def riff_levelValidate (fuel : Nat) (rh : riff_handle) : Option (Int × riff_handle) :=
  match riff_seekLevelStart rh with
  | (r, rh) =>
    if r ≠ RIFF_ERROR_NONE then some (r, rh)
    else levelValidateLoop fuel rh

/-- `counter++` on an `int32_t`.  Beyond `INT32_MAX` the C code has no defined
value; the embedding takes the two's complement one, and the statements about
the counters are made for counts below `2^31`. -/
def incr32 (c : Int) : Int := (c + 1 + 2 ^ 31) % 2 ^ 32 - 2 ^ 31

/-- The loop `while(1)` of `riff_amountOfChunksInLevel`. -/
def amountLoop : Nat → Int → riff_handle → Option (Int × riff_handle)
  | 0, _, _ => none
  | fuel + 1, counter, rh =>
    let counter := incr32 counter
    match riff_seekNextChunk rh with
    | (r, rh) =>
      if r ≠ RIFF_ERROR_NONE then
        if r = RIFF_ERROR_EOCL then some (counter, rh)
        else some (-1, rh)
      else amountLoop fuel counter rh

/-- `riff_amountOfChunksInLevel` (riff.c 616-637). -/
def riff_amountOfChunksInLevel (fuel : Nat) (rh : riff_handle) : Option (Int × riff_handle) :=
  match riff_seekLevelStart rh with
  | (r, rh) =>
    if r ≠ RIFF_ERROR_NONE then some (-1, rh)
    else amountLoop fuel 0 rh

/-- The loop `while(1)` of `riff_amountOfChunksInLevelWithID`. -/
def amountWithIDLoop (id : FourCC) : Nat → Int → riff_handle → Option (Int × riff_handle)
  | 0, _, _ => none
  | fuel + 1, counter, rh =>
    let counter := if rh.c_id = id then incr32 counter else counter
    match riff_seekNextChunk rh with
    | (r, rh) =>
      if r ≠ RIFF_ERROR_NONE then
        if r = RIFF_ERROR_EOCL then some (counter, rh)
        else some (-1, rh)
      else amountWithIDLoop id fuel counter rh

/-- `riff_amountOfChunksInLevelWithID` (riff.c 640-661). -/
def riff_amountOfChunksInLevelWithID (fuel : Nat) (rh : riff_handle) (id : FourCC) :
    Option (Int × riff_handle) :=
  match riff_seekLevelStart rh with
  | (r, rh) =>
    if r ≠ RIFF_ERROR_NONE then some (-1, rh)
    else amountWithIDLoop id fuel 0 rh

/-! ## Vocabulary of the statements, continued -/

/-- The handle of `riff_readHeader` once the twelve header bytes are stored:
tag `id`, 32 bit size `hsize`, form type `ty`. -/
def outerState (rh : riff_handle) (id : FourCC) (hsize : Nat) (ty : FourCC) : riff_handle :=
  { rh with
    fpos := rh.fpos + 12
    pos := add64 rh.pos 12
    h_id := id
    h_size := hsize
    h_type := ty }

/-- The last step of `riff_readHeader`: the comparison of the expected size
`rh->size` with `rh->h_size + 8`. -/
def sizeCompare (rh : riff_handle) : Int × riff_handle :=
  if rh.size ≠ 0 then
    if rh.size ≠ add64 rh.h_size 8 then
      if rh.size ≥ add64 rh.h_size 8 then (RIFF_ERROR_EXDAT, rh)
      else (RIFF_ERROR_EOF, rh)
    else (RIFF_ERROR_NONE, rh)
  else (RIFF_ERROR_NONE, rh)

/-- The 28 byte stream "BW64" FF FF FF FF "WAVE" "ds64" 8 with the size halves
low = 0x00000010 and high = 0x00000001. -/
def exDs64Big : List Byte :=
  [0x42, 0x57, 0x36, 0x34, 0xFF, 0xFF, 0xFF, 0xFF, 0x57, 0x41, 0x56, 0x45,
   0x64, 0x73, 0x36, 0x34, 8, 0, 0, 0,
   0x10, 0, 0, 0, 1, 0, 0, 0]

/-- The stream `exDs64Big` with the declared size of the "ds64" chunk raised to
`0xFFFFFFF8`. -/
def exDs64Oversize : List Byte :=
  [0x42, 0x57, 0x36, 0x34, 0xFF, 0xFF, 0xFF, 0xFF, 0x57, 0x41, 0x56, 0x45,
   0x64, 0x73, 0x36, 0x34, 0xF8, 0xFF, 0xFF, 0xFF,
   0x10, 0, 0, 0, 1, 0, 0, 0]

/-- The 30 byte stream "RIFF" 22 "WAVE" "abcd" 1 07 00 "efgh" 0: a chunk of odd
size 1, its pad byte, and a second chunk. -/
def exOdd : List Byte :=
  [0x52, 0x49, 0x46, 0x46, 22, 0, 0, 0, 0x57, 0x41, 0x56, 0x45,
   0x61, 0x62, 0x63, 0x64, 1, 0, 0, 0, 7, 0,
   0x65, 0x66, 0x67, 0x68, 0, 0, 0, 0]

/-- The session after `riff_open_file` on `exOdd`. -/
def exOddOpen : riff_handle := (riff_open_file riff_handleAllocate exOdd 0 0).2

/-- The tag "fmt ". -/
def tagFmt : FourCC := ⟨0x66, 0x6D, 0x74, 0x20⟩

/-- The handle on which `riff_seekLevelStart` calls `riff_readChunkHeader` at
depth 0: cursor and channel at the first chunk header. -/
def levelZero (rh : riff_handle) : riff_handle :=
  { rh with pos := add64 rh.pos_start 12, c_pos := 0, fpos := add64 rh.pos_start 12 }

/-- The 44 byte stream "RIFF" 36 "WAVE" "fmt " 0 "LIST" 16 "INFO" "data" 4
01 02 03 04: the list is the second chunk of the file and has one child. -/
def exNested : List Byte :=
  [0x52, 0x49, 0x46, 0x46, 36, 0, 0, 0, 0x57, 0x41, 0x56, 0x45,
   0x66, 0x6D, 0x74, 0x20, 0, 0, 0, 0,
   0x4C, 0x49, 0x53, 0x54, 16, 0, 0, 0, 0x49, 0x4E, 0x46, 0x4F,
   0x64, 0x61, 0x74, 0x61, 4, 0, 0, 0, 1, 2, 3, 4]

/-- The session on `exNested` after open, `riff_seekNextChunk` (to the list) and
`riff_seekLevelSub` (into it): depth 1, current chunk "data". -/
def exNestedInside : riff_handle :=
  (riff_seekLevelSub
    (riff_seekNextChunk (riff_open_file riff_handleAllocate exNested 0 0).2).2).2

/-- The 36 byte stream of the specification's open scenario: "RIFF" 10 00 00 00
"WAVE" "fmt " 10 00 00 00 and 16 zero bytes (outer size 16, chunk size 16). -/
def exScenario : List Byte :=
  [0x52, 0x49, 0x46, 0x46, 0x10, 0, 0, 0, 0x57, 0x41, 0x56, 0x45,
   0x66, 0x6D, 0x74, 0x20, 0x10, 0, 0, 0,
   0, 0, 0, 0, 0, 0, 0, 0, 0, 0, 0, 0, 0, 0, 0, 0]

/-- The 24 byte stream "RIFF" 16 "WAVE" "LIST" 4 "INFO": the only chunk is a
list without children, and the stream ends with it. -/
def exEmptyList : List Byte :=
  [0x52, 0x49, 0x46, 0x46, 16, 0, 0, 0, 0x57, 0x41, 0x56, 0x45,
   0x4C, 0x49, 0x53, 0x54, 4, 0, 0, 0, 0x49, 0x4E, 0x46, 0x4F]

/-- The session after `riff_open_file` on `exEmptyList`. -/
def exEmptyListOpen : riff_handle := (riff_open_file riff_handleAllocate exEmptyList 0 0).2

/-- The 36 byte stream "RIFF" 28 "WAVE" "LIST" 4 "INFO" "data" 4 01 02 03 04: a
list without children, followed by a sibling chunk. -/
def exEmptyListThen : List Byte :=
  [0x52, 0x49, 0x46, 0x46, 28, 0, 0, 0, 0x57, 0x41, 0x56, 0x45,
   0x4C, 0x49, 0x53, 0x54, 4, 0, 0, 0, 0x49, 0x4E, 0x46, 0x4F,
   0x64, 0x61, 0x74, 0x61, 4, 0, 0, 0, 1, 2, 3, 4]

/-- The session after `riff_open_file` on `exEmptyListThen`. -/
def exEmptyListThenOpen : riff_handle :=
  (riff_open_file riff_handleAllocate exEmptyListThen 0 0).2

/-- The 28 byte stream "BW64" FF FF FF FF "WAVE" "ds64" 8 with both halves of
the 64 bit size zero. -/
def exDs64Zero : List Byte :=
  [0x42, 0x57, 0x36, 0x34, 0xFF, 0xFF, 0xFF, 0xFF, 0x57, 0x41, 0x56, 0x45,
   0x64, 0x73, 0x36, 0x34, 8, 0, 0, 0,
   0, 0, 0, 0, 0, 0, 0, 0]

/-- The session after `riff_open_file` on `exDs64Zero`. -/
def exDs64ZeroOpen : riff_handle := (riff_open_file riff_handleAllocate exDs64Zero 0 0).2

/-- The public operations of a session, with their arguments; the operations
that loop carry their fuel. -/
inductive Op where
  | readInChunk (size : Nat)
  | seekInChunk (c_pos : Nat)
  | seekNextChunk
  | seekChunkStart
  | seekLevelStart
  | seekLevelSub
  | levelParent
  | seekLevelParentStart
  | seekLevelParentNext
  | rewind
  | levelValidate (fuel : Nat)
  | fileValidate (fuel : Nat)
  | amountOfChunksInLevel (fuel : Nat)
  | amountOfChunksInLevelWithID (fuel : Nat) (id : FourCC)
deriving DecidableEq, Repr

/-- One operation on a session: the value returned (for `riff_readInChunk` the
number of bytes) and the session left behind; `none` when the fuel ran out. -/
def Op.run : Op → riff_handle → Option (Int × riff_handle)
  | .readInChunk size, rh =>
    some (((riff_readInChunk rh size).1.length : Int), (riff_readInChunk rh size).2)
  | .seekInChunk c_pos, rh => some (riff_seekInChunk rh c_pos)
  | .seekNextChunk, rh => some (riff_seekNextChunk rh)
  | .seekChunkStart, rh => some (riff_seekChunkStart rh)
  | .seekLevelStart, rh => some (riff_seekLevelStart rh)
  | .seekLevelSub, rh => some (riff_seekLevelSub rh)
  | .levelParent, rh => some (riff_levelParent rh)
  | .seekLevelParentStart, rh => some (riff_seekLevelParentStart rh)
  | .seekLevelParentNext, rh => some (riff_seekLevelParentNext rh)
  | .rewind, rh => some (riff_rewind rh)
  | .levelValidate fuel, rh => riff_levelValidate fuel rh
  | .fileValidate fuel, rh => riff_fileValidate fuel rh
  | .amountOfChunksInLevel fuel, rh => riff_amountOfChunksInLevel fuel rh
  | .amountOfChunksInLevelWithID fuel id, rh => riff_amountOfChunksInLevelWithID fuel rh id

/-- The return codes that report no error: success, `RIFF_ERROR_EOC`,
`RIFF_ERROR_EOCL`, `RIFF_ERROR_EXDAT` and the -1 of `riff_levelParent` at
depth 0. -/
def benignCode (r : Int) : Bool :=
  r == RIFF_ERROR_NONE || r == RIFF_ERROR_EOC || r == RIFF_ERROR_EOCL ||
  r == RIFF_ERROR_EXDAT || r == -1

/-- The value an operation returned reports no error: a byte count for
`riff_readInChunk`, a count other than -1 for the two counters, a benign code
for every other operation. -/
def Op.accepts : Op → Int → Bool
  | .readInChunk _, _ => true
  | .amountOfChunksInLevel _, v => v != -1
  | .amountOfChunksInLevelWithID _ _, v => v != -1
  | _, r => benignCode r

/-- A sequence of operations none of which reports an error: the session it
ends in, or `none` when an operation reports an error or runs out of fuel. -/
def runOps : List Op → riff_handle → Option riff_handle
  | [], rh => some rh
  | op :: ops, rh =>
    match op.run rh with
    | some (r, rh) => if op.accepts r then runOps ops rh else none
    | none => none

/-- The chunk at `cps` with size `size` lies in the payload of the top frame,
behind its type tag, and so does every frame in the frame below it; sizes are
32 bit values and no end reaches `2^63`. -/
def Chain : Nat → Nat → List riff_levelStackE → Prop
  | _, _, [] => True
  | cps, size, f :: rest =>
    f.c_pos_start + 12 ≤ cps ∧
    cps + 8 + size + size % 2 ≤ f.c_pos_start + 8 + f.c_size ∧
    f.c_size < 2 ^ 32 ∧
    f.c_pos_start + 8 + f.c_size + f.c_size % 2 ≤ 2 ^ 63 ∧
    Chain f.c_pos_start f.c_size rest

/-- The consistency of a session that navigation without errors maintains. -/
structure Inv (rh : riff_handle) : Prop where
  size_lt : rh.c_size < 2 ^ 32
  pos_le : rh.c_pos ≤ rh.c_size
  pos_eq : rh.pos = rh.c_pos_start + 8 + rh.c_pos
  pad_eq : rh.pad = rh.c_size % 2
  end_le : rh.c_pos_start + 8 + rh.c_size + rh.pad ≤ 2 ^ 63
  chain : Chain rh.c_pos_start rh.c_size rh.ls
  bound_le : rh.pos_start + 8 + rh.h_size ≤ 2 ^ 63

/-- A sequence of operations on `exNested` that descends, reads, ascends, seeks
and counts. -/
def exNestedOps : List Op :=
  [.seekNextChunk, .seekLevelSub, .readInChunk 3, .levelParent, .seekInChunk 16,
   .seekNextChunk, .seekLevelParentStart, .rewind, .amountOfChunksInLevel 5]

/-- The session `exNestedOps` ends in, starting from the opened `exNested`. -/
def exNestedRun : riff_handle :=
  (runOps exNestedOps (riff_open_file riff_handleAllocate exNested 0 0).2).getD
    riff_handleAllocate

/-- The 26 byte stream "RIFF" 28 "WAVE" "fmt " 4 01 02 03 04 09 09: the outer
size announces a second chunk, of which the stream holds two bytes only. -/
def exTruncated : List Byte :=
  [0x52, 0x49, 0x46, 0x46, 28, 0, 0, 0, 0x57, 0x41, 0x56, 0x45,
   0x66, 0x6D, 0x74, 0x20, 4, 0, 0, 0, 1, 2, 3, 4, 9, 9]

/-- The session after `riff_open_file` on `exTruncated`. -/
def exTruncatedOpen : riff_handle := (riff_open_file riff_handleAllocate exTruncated 0 0).2

/-- The 22 byte stream "RIFF" 16 "WAVE" "LIST" 4 "IN": the stream ends in the
middle of the type tag of the list. -/
def exShortType : List Byte :=
  [0x52, 0x49, 0x46, 0x46, 16, 0, 0, 0, 0x57, 0x41, 0x56, 0x45,
   0x4C, 0x49, 0x53, 0x54, 4, 0, 0, 0, 0x49, 0x4E]

/-- The session after `riff_open_file` on `exShortType`. -/
def exShortTypeOpen : riff_handle := (riff_open_file riff_handleAllocate exShortType 0 0).2

/-- The stream `exWave` behind four foreign bytes: the RIFF data starts at
offset 4 of the stream. -/
def exEmbedded : List Byte := [0xAA, 0xBB, 0xCC, 0xDD] ++ exWave

/-- The right-hand side of the cursor equation, `c_pos_start + 8 + c_pos`, the
sum taken as the code takes it, in `size_t`. -/
def cursorSum (rh : riff_handle) : Nat :=
  add64 (add64 rh.c_pos_start RIFF_CHUNK_DATA_OFFSET) rh.c_pos

/-- The public navigation operations: `riff_seekInChunk`, `riff_seekNextChunk`,
`riff_seekChunkStart`, `riff_seekLevelStart`, `riff_seekLevelSub`,
`riff_levelParent`, `riff_rewind` and the two parent composites. -/
def Op.isNavigation : Op → Bool
  | .seekInChunk _ => true
  | .seekNextChunk => true
  | .seekChunkStart => true
  | .seekLevelStart => true
  | .seekLevelSub => true
  | .levelParent => true
  | .seekLevelParentStart => true
  | .seekLevelParentNext => true
  | .rewind => true
  | _ => false

/-- The 28 byte stream "RIFF" 20 "WAVE" "LIST" 8 01 02 03 04 05 06 07 08: a list
whose type tag holds control characters. -/
def exBadType : List Byte :=
  [0x52, 0x49, 0x46, 0x46, 20, 0, 0, 0, 0x57, 0x41, 0x56, 0x45,
   0x4C, 0x49, 0x53, 0x54, 8, 0, 0, 0, 1, 2, 3, 4, 5, 6, 7, 8]

/-- The session after `riff_open_file` on `exBadType`. -/
def exBadTypeOpen : riff_handle := (riff_open_file riff_handleAllocate exBadType 0 0).2

/-- The 36 byte stream "BW64" FF FF FF FF "WAVE" "ds64" 8, eight bytes FF (the
64 bit size `2^64 - 1`), "data" 0. -/
def exDs64Max : List Byte :=
  [0x42, 0x57, 0x36, 0x34, 0xFF, 0xFF, 0xFF, 0xFF, 0x57, 0x41, 0x56, 0x45,
   0x64, 0x73, 0x36, 0x34, 8, 0, 0, 0,
   0xFF, 0xFF, 0xFF, 0xFF, 0xFF, 0xFF, 0xFF, 0xFF,
   0x64, 0x61, 0x74, 0x61, 0, 0, 0, 0]

/-- The session after `riff_open_file` on `exDs64Max`. -/
def exDs64MaxOpen : riff_handle := (riff_open_file riff_handleAllocate exDs64Max 0 0).2

/-! ## Basic facts -/

theorem add64_lt (a b : Nat) : add64 a b < 2 ^ 64 := by
  unfold add64; omega

theorem add64_of_lt {a b : Nat} (h : a + b < 2 ^ 64) : add64 a b = a + b := by
  unfold add64; omega

theorem sub64_lt (a b : Nat) : sub64 a b < 2 ^ 64 := by
  unfold sub64; omega

theorem and_one_eq_mod (n : Nat) : n &&& 1 = n % 2 := Nat.and_one_is_mod n

theorem convUInt32LE_lt (a b c d : Byte) : convUInt32LE a b c d < 2 ^ 32 := by
  unfold convUInt32LE; omega

/-- The value `convUInt32LE` computes with shifts and ors is the little-endian
number. -/
theorem convUInt32LE_eq (a b c d : Byte) :
    convUInt32LE a b c d = a.val + 2 ^ 8 * b.val + 2 ^ 16 * c.val + 2 ^ 24 * d.val := by
  have ha := a.isLt
  have hb := b.isLt
  have hc := c.isLt
  have hd := d.isLt
  have h1 : a.val ||| b.val <<< 8 = a.val + 2 ^ 8 * b.val := by
    rw [Nat.shiftLeft_eq, Nat.lor_comm, Nat.mul_comm, ← Nat.mul_add_lt_is_or (by omega)]
    omega
  have h2 : a.val ||| b.val <<< 8 ||| c.val <<< 16 = a.val + 2 ^ 8 * b.val + 2 ^ 16 * c.val := by
    rw [h1, Nat.shiftLeft_eq, Nat.lor_comm, Nat.mul_comm, ← Nat.mul_add_lt_is_or (by omega)]
    omega
  have h3 : a.val ||| b.val <<< 8 ||| c.val <<< 16 ||| d.val <<< 24 =
      a.val + 2 ^ 8 * b.val + 2 ^ 16 * c.val + 2 ^ 24 * d.val := by
    rw [h2, Nat.shiftLeft_eq, Nat.lor_comm, Nat.mul_comm, ← Nat.mul_add_lt_is_or (by omega)]
    omega
  unfold convUInt32LE
  rw [h3]
  omega

theorem illegalChar_eq_false (c : Byte) :
    illegalChar c = false ↔ 0x20 ≤ c.val ∧ c.val ≤ 0x7e := by
  simp [illegalChar]

theorem illegalTag_eq_false (a0 a1 a2 a3 : Byte) :
    illegalTag ⟨a0, a1, a2, a3⟩ = false ↔
      ∀ c ∈ [a0, a1, a2, a3], 0x20 ≤ c.val ∧ c.val ≤ 0x7e := by
  simp [illegalTag, illegalChar]
  tauto

theorem read_file_snd (rh : riff_handle) (n : Nat) :
    (read_file rh n).2 = { rh with fpos := rh.fpos + (read_file rh n).1.length } := rfl

theorem read_file_length_le (rh : riff_handle) (n : Nat) : (read_file rh n).1.length ≤ n := by
  simp [read_file]

/-- When eight bytes are delivered, `riff_readChunkHeader` is a cascade of three
tests on them. -/
theorem readChunkHeader_eq (rh : riff_handle) (a0 a1 a2 a3 s0 s1 s2 s3 : Byte)
    (hread : (read_file rh 8).1 = [a0, a1, a2, a3, s0, s1, s2, s3]) :
    riff_readChunkHeader rh =
      (if illegalTag ⟨a0, a1, a2, a3⟩ then RIFF_ERROR_ILLID
       else if enclosingBound rh <
          add64 (add64 (add64 rh.pos 8) (convUInt32LE s0 s1 s2 s3)) (convUInt32LE s0 s1 s2 s3 &&& 1)
        then RIFF_ERROR_ICSIZE
       else if rh.size > 0 ∧ rh.size <
          add64 (add64 (add64 rh.pos 8) (convUInt32LE s0 s1 s2 s3)) (convUInt32LE s0 s1 s2 s3 &&& 1)
        then RIFF_ERROR_EOF
       else RIFF_ERROR_NONE, headerState rh a0 a1 a2 a3 s0 s1 s2 s3) := by
  have h2 : read_file rh 8 =
      ([a0, a1, a2, a3, s0, s1, s2, s3], { rh with fpos := rh.fpos + 8 }) := by
    apply Prod.ext
    · exact hread
    · rw [read_file_snd, hread]; rfl
  unfold riff_readChunkHeader
  rw [h2]
  simp only [headerState, enclosingBound, gt_iff_lt, RIFF_CHUNK_DATA_OFFSET]
  split_ifs <;> rfl

theorem list_length_eight {α : Type} (l : List α) (h : l.length = 8) :
    ∃ a0 a1 a2 a3 s0 s1 s2 s3, l = [a0, a1, a2, a3, s0, s1, s2, s3] := by
  match l, h with
  | [a0, a1, a2, a3, s0, s1, s2, s3], _ => exact ⟨a0, a1, a2, a3, s0, s1, s2, s3, rfl⟩

theorem readChunkHeader_short (rh : riff_handle) (h : (read_file rh 8).1.length ≠ 8) :
    riff_readChunkHeader rh = (RIFF_ERROR_EOF, (read_file rh 8).2) := by
  unfold riff_readChunkHeader
  split
  · rename_i heq
    rw [heq] at h
    simp at h
  · rename_i heq
    rw [heq]

theorem readChunkHeader_ls (rh : riff_handle) : (riff_readChunkHeader rh).2.ls = rh.ls := by
  by_cases h : (read_file rh 8).1.length = 8
  · obtain ⟨a0, a1, a2, a3, s0, s1, s2, s3, hl⟩ := list_length_eight _ h
    rw [readChunkHeader_eq rh a0 a1 a2 a3 s0 s1 s2 s3 hl]
    rfl
  · rw [readChunkHeader_short rh h]
    rfl

/-- The pad flag `riff_readChunkHeader` stores is the parity of the size it
stores. -/
theorem headerState_pad (rh : riff_handle) (a0 a1 a2 a3 s0 s1 s2 s3 : Byte) :
    (headerState rh a0 a1 a2 a3 s0 s1 s2 s3).pad =
      (headerState rh a0 a1 a2 a3 s0 s1 s2 s3).c_size &&& 1 := rfl

/-- A chunk made current by a successful `riff_readChunkHeader` has
`pad = c_size & 1`. -/
theorem readChunkHeader_pad (rh : riff_handle)
    (h : (riff_readChunkHeader rh).1 = RIFF_ERROR_NONE) :
    (riff_readChunkHeader rh).2.pad = (riff_readChunkHeader rh).2.c_size &&& 1 := by
  by_cases h8 : (read_file rh 8).1.length = 8
  · obtain ⟨a0, a1, a2, a3, s0, s1, s2, s3, hl⟩ := list_length_eight _ h8
    rw [readChunkHeader_eq rh a0 a1 a2 a3 s0 s1 s2 s3 hl]
    rfl
  · rw [readChunkHeader_short rh h8] at h
    exact absurd h (show ¬ (RIFF_ERROR_EOF = RIFF_ERROR_NONE) by decide)

/-- The bounds test of `riff_readChunkHeader` read in unbounded arithmetic: when
neither the end of the chunk nor the end of the enclosing list reaches `2^64`,
the `size_t` sums are the plain sums. -/
theorem readChunkHeader_icsize_plain (rh : riff_handle)
    (a0 a1 a2 a3 s0 s1 s2 s3 : Byte)
    (hread : (read_file rh 8).1 = [a0, a1, a2, a3, s0, s1, s2, s3])
    (htag : illegalTag ⟨a0, a1, a2, a3⟩ = false)
    (hend : rh.pos + 8 + convUInt32LE s0 s1 s2 s3 + convUInt32LE s0 s1 s2 s3 % 2 < 2 ^ 64)
    (hbound : enclosingBoundNat rh < 2 ^ 64) :
    (riff_readChunkHeader rh).1 = RIFF_ERROR_ICSIZE ↔
      enclosingBoundNat rh <
        rh.pos + 8 + convUInt32LE s0 s1 s2 s3 + convUInt32LE s0 s1 s2 s3 % 2 := by
  rw [readChunkHeader_eq rh a0 a1 a2 a3 s0 s1 s2 s3 hread]
  simp only [htag, Bool.false_eq_true, if_false]
  have e1 : add64 (add64 (add64 rh.pos 8) (convUInt32LE s0 s1 s2 s3))
      (convUInt32LE s0 s1 s2 s3 &&& 1) =
      rh.pos + 8 + convUInt32LE s0 s1 s2 s3 + convUInt32LE s0 s1 s2 s3 % 2 := by
    rw [and_one_eq_mod]
    unfold add64
    omega
  have e2 : enclosingBound rh = enclosingBoundNat rh := by
    unfold enclosingBound
    unfold enclosingBoundNat at hbound ⊢
    cases hls : rh.ls with
    | nil =>
      rw [hls] at hbound
      simp only at hbound ⊢
      unfold add64
      omega
    | cons f rest =>
      rw [hls] at hbound
      simp only at hbound ⊢
      unfold add64
      omega
  rw [e1, e2]
  split_ifs with h1 h2
  · exact iff_of_true rfl h1
  · exact iff_of_false (by decide) h1
  · exact iff_of_false (by decide) h1

/-! ## The chunk header reader -/

/-- When the end of the enclosing list stays below `2^64`, the `size_t` sum the
code computes for it is the plain sum. -/
theorem enclosingBound_eq_nat (rh : riff_handle) (h : enclosingBoundNat rh < 2 ^ 64) :
    enclosingBound rh = enclosingBoundNat rh := by
  unfold enclosingBound
  unfold enclosingBoundNat at h ⊢
  cases hls : rh.ls with
  | nil =>
    rw [hls] at h
    simp only at h ⊢
    unfold add64
    omega
  | cons f rest =>
    rw [hls] at h
    simp only at h ⊢
    unfold add64
    omega

/-- When the position behind the current chunk stays below `2^64`, the `size_t`
sum the code computes for it is the plain sum. -/
theorem nextHeaderPos_eq_nat (rh : riff_handle)
    (h : rh.c_pos_start + 8 + rh.c_size + rh.pad < 2 ^ 64) :
    nextHeaderPos rh = rh.c_pos_start + 8 + rh.c_size + rh.pad := by
  unfold nextHeaderPos add64
  omega

/-- C1 as stated fails on the session open leaves on `exDs64Max`, at the call
of `riff_readChunkHeader` that `riff_rewind` makes: the eight bytes "ds64" 8
are read at position 12, the tag is printable, the chunk ends at
`12 + 8 + 8 + 0 = 28`, the bound is `pos_start + 8 + h_size = 2^64 + 7`, and
the call returns `RIFF_ERROR_ICSIZE`: the bound the code computes is 7. -/
theorem riff_readChunkHeader_bounds_wrap :
    (riff_open_file riff_handleAllocate exDs64Max 0 0).1 = RIFF_ERROR_NONE ∧
    riff_rewind exDs64MaxOpen = riff_readChunkHeader (levelZero exDs64MaxOpen) ∧
    (read_file (levelZero exDs64MaxOpen) 8).1 = [0x64, 0x73, 0x36, 0x34, 8, 0, 0, 0] ∧
    (levelZero exDs64MaxOpen).pos = 12 ∧
    (levelZero exDs64MaxOpen).ls = [] ∧
    (levelZero exDs64MaxOpen).pos_start + 8 + (levelZero exDs64MaxOpen).h_size = 2 ^ 64 + 7 ∧
    ¬ ((levelZero exDs64MaxOpen).pos + 8 + convUInt32LE 8 0 0 0 + (convUInt32LE 8 0 0 0 &&& 1) >
        (levelZero exDs64MaxOpen).pos_start + 8 + (levelZero exDs64MaxOpen).h_size) ∧
    (riff_readChunkHeader (levelZero exDs64MaxOpen)).1 = RIFF_ERROR_ICSIZE ∧
    enclosingBound (levelZero exDs64MaxOpen) = 7 :=
  ⟨by decide, by decide, by decide, by decide, by decide, by decide, by decide, by decide,
   by decide⟩

/-- C1 (amended): when `riff_readChunkHeader` gets its eight bytes and the four
tag bytes are printable (0x20..0x7E), it returns `RIFF_ERROR_ICSIZE` exactly
when the `size_t` value of `header_pos + 8 + size + (size & 1)` exceeds the
`size_t` value of the bound, where `size` is the little-endian number in bytes
4..7, `header_pos` the tracked position at the call, and the bound the end of
the top frame (depth > 0) or of the outer chunk (depth 0).  In every session
in which neither of the two sums reaches `2^64`, that is: exactly when
`header_pos + 8 + size + (size & 1) > bound`. -/
theorem riff_readChunkHeader_bounds_check (rh : riff_handle)
    (a0 a1 a2 a3 s0 s1 s2 s3 : Byte)
    (hread : (read_file rh 8).1 = [a0, a1, a2, a3, s0, s1, s2, s3])
    (htag : ∀ c ∈ [a0, a1, a2, a3], 0x20 ≤ c.val ∧ c.val ≤ 0x7e) :
    ((riff_readChunkHeader rh).1 = RIFF_ERROR_ICSIZE ↔
      enclosingBound rh <
        add64 (add64 (add64 rh.pos 8) (convUInt32LE s0 s1 s2 s3))
          (convUInt32LE s0 s1 s2 s3 &&& 1)) ∧
    (rh.pos + 8 + convUInt32LE s0 s1 s2 s3 + (convUInt32LE s0 s1 s2 s3 &&& 1) < 2 ^ 64 →
      enclosingBoundNat rh < 2 ^ 64 →
      ((riff_readChunkHeader rh).1 = RIFF_ERROR_ICSIZE ↔
        enclosingBoundNat rh <
          rh.pos + 8 + convUInt32LE s0 s1 s2 s3 + (convUInt32LE s0 s1 s2 s3 &&& 1))) := by
  have ht := (illegalTag_eq_false a0 a1 a2 a3).mpr htag
  refine ⟨?_, fun hend hbound => ?_⟩
  · rw [readChunkHeader_eq rh a0 a1 a2 a3 s0 s1 s2 s3 hread]
    simp only [ht, Bool.false_eq_true, if_false]
    split_ifs with h1 h2
    · exact iff_of_true rfl h1
    · exact iff_of_false (by decide) h1
    · exact iff_of_false (by decide) h1
  · rw [and_one_eq_mod] at hend ⊢
    exact readChunkHeader_icsize_plain rh a0 a1 a2 a3 s0 s1 s2 s3 hread ht hend hbound

/-- C1 (amended), the scenario of the claim: inside a parent chunk of size 20 a
header that declares the size `0xFFFFFFF0` is answered with
`RIFF_ERROR_ICSIZE`; no sum reaches `2^64`. -/
theorem riff_readChunkHeader_bounds_check_witness :
    (riff_readChunkHeader exOversized).1 = RIFF_ERROR_ICSIZE :=
  ((riff_readChunkHeader_bounds_check exOversized 0x64 0x61 0x74 0x61 0xF0 0xFF 0xFF 0xFF
    rfl (by simp; decide)).2 (by decide) (by decide)).mpr (by decide)

/-- C2: when `riff_readChunkHeader` gets its eight bytes, it returns
`RIFF_ERROR_ILLID` exactly when one of the four tag bytes lies outside
0x20..0x7E; the size bytes and the enclosing bound play no part. -/
theorem riff_readChunkHeader_tag_check (rh : riff_handle)
    (a0 a1 a2 a3 s0 s1 s2 s3 : Byte)
    (hread : (read_file rh 8).1 = [a0, a1, a2, a3, s0, s1, s2, s3]) :
    (riff_readChunkHeader rh).1 = RIFF_ERROR_ILLID ↔
      ∃ c ∈ [a0, a1, a2, a3], c.val < 0x20 ∨ 0x7e < c.val := by
  rw [readChunkHeader_eq rh a0 a1 a2 a3 s0 s1 s2 s3 hread]
  have key : illegalTag ⟨a0, a1, a2, a3⟩ = true ↔
      ∃ c ∈ [a0, a1, a2, a3], c.val < 0x20 ∨ 0x7e < c.val := by
    simp [illegalTag, illegalChar, or_assoc]
  rw [← key]
  split_ifs with h0 h1 h2 <;> simp [h0]

/-- C2 at a header whose second tag byte is 0x07 and whose size fits. -/
theorem riff_readChunkHeader_tag_check_witness :
    (riff_readChunkHeader exBadTag).1 = RIFF_ERROR_ILLID :=
  (riff_readChunkHeader_tag_check exBadTag 0x64 0x07 0x74 0x61 4 0 0 0 rfl).mpr
    ⟨0x07, by decide, by decide⟩

/-! ## Navigation -/

/-- The three branches of `riff_seekNextChunk`, with the position behind the
current chunk and the bound as the code computes them. -/
theorem seekNextChunk_branches (rh : riff_handle) :
    (enclosingBound rh < add64 (nextHeaderPos rh) 8 → nextHeaderPos rh < enclosingBound rh →
        riff_seekNextChunk rh = (RIFF_ERROR_EXDAT, rh)) ∧
    (enclosingBound rh < add64 (nextHeaderPos rh) 8 → enclosingBound rh ≤ nextHeaderPos rh →
        riff_seekNextChunk rh = (RIFF_ERROR_EOCL, rh)) ∧
    (add64 (nextHeaderPos rh) 8 ≤ enclosingBound rh →
        riff_seekNextChunk rh =
          riff_readChunkHeader
            { rh with pos := nextHeaderPos rh, c_pos := 0, fpos := nextHeaderPos rh }) := by
  unfold riff_seekNextChunk
  simp only [enclosingBound, nextHeaderPos, RIFF_CHUNK_DATA_OFFSET, gt_iff_lt, seek_file]
  refine ⟨fun h1 h2 => ?_, fun h1 h2 => ?_, fun h1 => ?_⟩
  · rw [if_pos h1, if_pos h2]
  · rw [if_pos h1, if_neg (Nat.not_lt.mpr h2)]
  · rw [if_neg (Nat.not_lt.mpr h1)]

/-- C3 as stated fails on the session open leaves on `exDs64Max`: the position
behind the current chunk is `12 + 8 + 8 + 0 = 28`, the bound is
`pos_start + 8 + h_size = 2^64 + 7`, so `next + 8 <= bound`, and yet
`riff_seekNextChunk` returns `RIFF_ERROR_EOCL` and leaves the session as it
was, where `riff_readChunkHeader` at 28 returns `RIFF_ERROR_ICSIZE`: the bound
the code computes is 7. -/
theorem riff_seekNextChunk_classification_wrap :
    (riff_open_file riff_handleAllocate exDs64Max 0 0).1 = RIFF_ERROR_NONE ∧
    exDs64MaxOpen.ls = [] ∧
    exDs64MaxOpen.c_pos_start + 8 + exDs64MaxOpen.c_size + exDs64MaxOpen.pad = 28 ∧
    exDs64MaxOpen.pos_start + 8 + exDs64MaxOpen.h_size = 2 ^ 64 + 7 ∧
    riff_seekNextChunk exDs64MaxOpen = (RIFF_ERROR_EOCL, exDs64MaxOpen) ∧
    (riff_readChunkHeader
      { exDs64MaxOpen with pos := 28, c_pos := 0, fpos := 28 }).1 = RIFF_ERROR_ICSIZE ∧
    enclosingBound exDs64MaxOpen = 7 :=
  ⟨by decide, by decide, by decide, by decide, by decide, by decide, by decide⟩

/-- C3 (amended): `riff_seekNextChunk` classifies the end of a level.  With
`next` the `size_t` value of `c_pos_start + 8 + c_size + pad` and `bound` the
`size_t` value of the end of the enclosing list: if `next + 8 > bound` the call
returns `RIFF_ERROR_EXDAT` when `bound > next` and `RIFF_ERROR_EOCL` otherwise,
and the session is left as it was; if `next + 8 <= bound` the call is
`riff_readChunkHeader` on the session with cursor and channel set to `next`
and the offset in the chunk set to 0.  In every session in which neither
`next + 8` nor the end of the enclosing list reaches `2^64`, the same holds
with the plain sums `next = c_pos_start + 8 + c_size + pad` and
`bound = c_pos_start + 8 + c_size` of the top frame (depth > 0) or
`pos_start + 8 + h_size` (depth 0). -/
theorem riff_seekNextChunk_classification (rh : riff_handle) :
    ((enclosingBound rh < add64 (nextHeaderPos rh) 8 → nextHeaderPos rh < enclosingBound rh →
        riff_seekNextChunk rh = (RIFF_ERROR_EXDAT, rh)) ∧
     (enclosingBound rh < add64 (nextHeaderPos rh) 8 → enclosingBound rh ≤ nextHeaderPos rh →
        riff_seekNextChunk rh = (RIFF_ERROR_EOCL, rh)) ∧
     (add64 (nextHeaderPos rh) 8 ≤ enclosingBound rh →
        riff_seekNextChunk rh =
          riff_readChunkHeader
            { rh with pos := nextHeaderPos rh, c_pos := 0, fpos := nextHeaderPos rh })) ∧
    (rh.c_pos_start + 8 + rh.c_size + rh.pad + 8 < 2 ^ 64 → enclosingBoundNat rh < 2 ^ 64 →
      (enclosingBoundNat rh < rh.c_pos_start + 8 + rh.c_size + rh.pad + 8 →
        rh.c_pos_start + 8 + rh.c_size + rh.pad < enclosingBoundNat rh →
        riff_seekNextChunk rh = (RIFF_ERROR_EXDAT, rh)) ∧
      (enclosingBoundNat rh < rh.c_pos_start + 8 + rh.c_size + rh.pad + 8 →
        enclosingBoundNat rh ≤ rh.c_pos_start + 8 + rh.c_size + rh.pad →
        riff_seekNextChunk rh = (RIFF_ERROR_EOCL, rh)) ∧
      (rh.c_pos_start + 8 + rh.c_size + rh.pad + 8 ≤ enclosingBoundNat rh →
        riff_seekNextChunk rh =
          riff_readChunkHeader
            { rh with
              pos := rh.c_pos_start + 8 + rh.c_size + rh.pad
              c_pos := 0
              fpos := rh.c_pos_start + 8 + rh.c_size + rh.pad })) := by
  refine ⟨seekNextChunk_branches rh, fun hw hb => ?_⟩
  have e1 := nextHeaderPos_eq_nat rh (by omega)
  have e2 := enclosingBound_eq_nat rh hb
  have e3 : add64 (rh.c_pos_start + 8 + rh.c_size + rh.pad) 8 =
      rh.c_pos_start + 8 + rh.c_size + rh.pad + 8 := add64_of_lt hw
  have key := seekNextChunk_branches rh
  rw [e1, e2, e3] at key
  exact key

/-- C3 (amended) at three sessions without wrap-around: the only chunk of
`exWave` ends the level; with the outer size raised by 3 the same chunk is
followed by excess bytes; with the chunk size lowered to 0 the call reads a
header at offset 20. -/
theorem riff_seekNextChunk_classification_witness :
    riff_seekNextChunk exWaveOpen = (RIFF_ERROR_EOCL, exWaveOpen) ∧
    riff_seekNextChunk { exWaveOpen with h_size := 31 } =
      (RIFF_ERROR_EXDAT, { exWaveOpen with h_size := 31 }) ∧
    riff_seekNextChunk { exWaveOpen with c_size := 0 } =
      riff_readChunkHeader { exWaveOpen with c_size := 0, pos := 20, c_pos := 0, fpos := 20 } :=
  ⟨((riff_seekNextChunk_classification exWaveOpen).2 (by decide) (by decide)).2.1 (by decide) (by decide),
   ((riff_seekNextChunk_classification { exWaveOpen with h_size := 31 }).2 (by decide) (by decide)).1
     (by decide) (by decide),
   ((riff_seekNextChunk_classification { exWaveOpen with c_size := 0 }).2 (by decide) (by decide)).2.2 (by decide)⟩

/-- C5: `riff_seekInChunk` returns `RIFF_ERROR_EOC` exactly when the offset is
larger than `c_size`, and then the session is left as it was; for an offset up
to and including `c_size` it returns success with `pos = c_pos_start + 8 +
offset` (a `size_t` sum) and `c_pos = offset`. -/
theorem riff_seekInChunk_spec (rh : riff_handle) (offset : Nat) :
    ((riff_seekInChunk rh offset).1 = RIFF_ERROR_EOC ↔ rh.c_size < offset) ∧
    (rh.c_size < offset → (riff_seekInChunk rh offset).2 = rh) ∧
    (offset ≤ rh.c_size →
      (riff_seekInChunk rh offset).1 = RIFF_ERROR_NONE ∧
      (riff_seekInChunk rh offset).2.pos = add64 (add64 rh.c_pos_start 8) offset ∧
      (riff_seekInChunk rh offset).2.c_pos = offset) := by
  unfold riff_seekInChunk
  simp only [gt_iff_lt, seek_file, RIFF_CHUNK_DATA_OFFSET]
  by_cases h : rh.c_size < offset
  · rw [if_pos h]
    exact ⟨iff_of_true rfl h, fun _ => rfl, fun h2 => absurd h (Nat.not_lt.mpr h2)⟩
  · rw [if_neg h]
    exact ⟨iff_of_false (show ¬ (RIFF_ERROR_NONE = RIFF_ERROR_EOC) by decide) h, fun h2 => absurd h2 h, fun _ => ⟨rfl, rfl, rfl⟩⟩

/-- C5 on `exWave`: offset 17 is refused and nothing moves, offset 16 is taken. -/
theorem riff_seekInChunk_spec_witness :
    (riff_seekInChunk exWaveOpen 17).2 = exWaveOpen ∧
    (riff_seekInChunk exWaveOpen 16).1 = RIFF_ERROR_NONE ∧
    (riff_seekInChunk exWaveOpen 16).2.pos = 36 ∧
    (riff_seekInChunk exWaveOpen 16).2.c_pos = 16 :=
  ⟨(riff_seekInChunk_spec exWaveOpen 17).2.1 (by decide),
   (riff_seekInChunk_spec exWaveOpen 16).2.2 (by decide)⟩

theorem notListTag_eq_true (t : FourCC) :
    notListTag t = true ↔ t ≠ tagRIFF ∧ t ≠ tagBW64 ∧ t ≠ tagLIST := by
  simp [notListTag]; tauto

/-- C6: the gate of `riff_seekLevelSub`.  A current chunk whose tag is none of
"RIFF", "BW64", "LIST" is answered with `RIFF_ERROR_ILLID`, a list-capable one
with `c_size < 4` with `RIFF_ERROR_ICSIZE`, and in both cases the session
(depth, stack, cursor, current chunk, channel) is left as it was; a success
result implies a list-capable tag and `c_size >= 4`. -/
theorem riff_seekLevelSub_gate (rh : riff_handle) :
    ((rh.c_id ≠ tagRIFF ∧ rh.c_id ≠ tagBW64 ∧ rh.c_id ≠ tagLIST) →
        riff_seekLevelSub rh = (RIFF_ERROR_ILLID, rh)) ∧
    (¬ (rh.c_id ≠ tagRIFF ∧ rh.c_id ≠ tagBW64 ∧ rh.c_id ≠ tagLIST) → rh.c_size < 4 →
        riff_seekLevelSub rh = (RIFF_ERROR_ICSIZE, rh)) ∧
    ((riff_seekLevelSub rh).1 = RIFF_ERROR_NONE →
        (rh.c_id = tagRIFF ∨ rh.c_id = tagBW64 ∨ rh.c_id = tagLIST) ∧ 4 ≤ rh.c_size) := by
  refine ⟨fun h => ?_, fun h hs => ?_, fun h => ?_⟩
  · unfold riff_seekLevelSub
    rw [if_pos ((notListTag_eq_true _).mpr h)]
  · unfold riff_seekLevelSub
    rw [if_neg (fun hn => h ((notListTag_eq_true _).mp hn)), if_pos hs]
  · by_cases ht : notListTag rh.c_id = true
    · unfold riff_seekLevelSub at h
      rw [if_pos ht] at h
      exact absurd h (show ¬ (RIFF_ERROR_ILLID = RIFF_ERROR_NONE) by decide)
    · by_cases hs : rh.c_size < 4
      · unfold riff_seekLevelSub at h
        rw [if_neg ht, if_pos hs] at h
        exact absurd h (show ¬ (RIFF_ERROR_ICSIZE = RIFF_ERROR_NONE) by decide)
      · refine ⟨?_, Nat.not_lt.mp hs⟩
        rw [notListTag_eq_true] at ht
        tauto

/-- C6 at three sessions: the "fmt " chunk of `exWave`, the list of `exList`
with its size lowered to 3, and the list of `exList` as it is. -/
theorem riff_seekLevelSub_gate_witness :
    riff_seekLevelSub exWaveOpen = (RIFF_ERROR_ILLID, exWaveOpen) ∧
    riff_seekLevelSub { exListOpen with c_size := 3 } =
      (RIFF_ERROR_ICSIZE, { exListOpen with c_size := 3 }) ∧
    ((exListOpen.c_id = tagRIFF ∨ exListOpen.c_id = tagBW64 ∨ exListOpen.c_id = tagLIST) ∧
      4 ≤ exListOpen.c_size) :=
  ⟨(riff_seekLevelSub_gate exWaveOpen).1 (by decide),
   (riff_seekLevelSub_gate { exListOpen with c_size := 3 }).2.1 (by decide) (by decide),
   (riff_seekLevelSub_gate exListOpen).2.2 (by decide)⟩

/-- A successful `riff_seekLevelSub` has passed both guards. -/
theorem seekLevelSub_pass (rh : riff_handle)
    (hsub : (riff_seekLevelSub rh).1 = RIFF_ERROR_NONE) :
    notListTag rh.c_id = false ∧ 4 ≤ rh.c_size := by
  unfold riff_seekLevelSub at hsub
  by_cases ht : notListTag rh.c_id = true
  · rw [if_pos ht] at hsub
    exact absurd hsub (show ¬ (RIFF_ERROR_ILLID = RIFF_ERROR_NONE) by decide)
  · by_cases hs : rh.c_size < 4
    · rw [if_neg ht, if_pos hs] at hsub
      exact absurd hsub (show ¬ (RIFF_ERROR_ICSIZE = RIFF_ERROR_NONE) by decide)
    · exact ⟨Bool.eq_false_iff.mpr ht, Nat.not_lt.mp hs⟩

theorem sub64_sub64 (a b c : Nat) : sub64 (sub64 a b) c = sub64 a (add64 b c) := by
  unfold sub64 add64; omega

theorem stack_pop_cons (rh : riff_handle) (f : riff_levelStackE) (rest : List riff_levelStackE)
    (h : rh.ls = f :: rest) :
    stack_pop rh =
      { rh with
        ls := rest
        c_pos_start := f.c_pos_start
        c_id := f.c_id
        c_size := f.c_size
        pad := f.c_size &&& 1
        c_pos := sub64 (sub64 rh.pos f.c_pos_start) 8 } := by
  unfold stack_pop
  split
  · rename_i h0; rw [h0] at h; cases h
  · rename_i l r h0
    rw [h0] at h
    cases h
    rfl

theorem seekLevelSub_eq (rh : riff_handle) (ht : notListTag rh.c_id = false)
    (hs : 4 ≤ rh.c_size) :
    riff_seekLevelSub rh =
      if illegalTag (typeBuf (read_file (subStart rh) 4).1) then
        (RIFF_ERROR_ILLID,
          { (read_file (subStart rh) 4).2 with pos := add64 (subStart rh).pos 4 })
      else
        riff_readChunkHeader
          (stack_push { (read_file (subStart rh) 4).2 with pos := add64 (subStart rh).pos 4 }
            (typeBuf (read_file (subStart rh) 4).1)) := by
  unfold riff_seekLevelSub
  rw [ht]
  simp only [Bool.false_eq_true, if_false, if_neg (Nat.not_lt.mpr hs)]
  unfold subStart seek_file
  simp only [RIFF_CHUNK_DATA_OFFSET]
  split_ifs <;> rfl

theorem subStart_frame (rh : riff_handle) :
    (subStart rh).c_id = rh.c_id ∧ (subStart rh).c_size = rh.c_size ∧
    (subStart rh).c_pos_start = rh.c_pos_start ∧ (subStart rh).ls = rh.ls := by
  unfold subStart
  split_ifs <;> exact ⟨rfl, rfl, rfl, rfl⟩

theorem seekLevelSub_success (rh : riff_handle)
    (hsub : (riff_seekLevelSub rh).1 = RIFF_ERROR_NONE) :
    ∃ ty, (riff_seekLevelSub rh).2.ls = ⟨rh.c_id, rh.c_size, rh.c_pos_start, ty⟩ :: rh.ls := by
  obtain ⟨ht, hs⟩ := seekLevelSub_pass rh hsub
  rw [seekLevelSub_eq rh ht hs] at hsub ⊢
  obtain ⟨h1, h2, h3, h4⟩ := subStart_frame rh
  split_ifs at hsub ⊢ with hill
  · exact absurd hsub (show ¬ (RIFF_ERROR_ILLID = RIFF_ERROR_NONE) by decide)
  · refine ⟨typeBuf (read_file (subStart rh) 4).1, ?_⟩
    rw [readChunkHeader_ls]
    show (⟨(subStart rh).c_id, (subStart rh).c_size, (subStart rh).c_pos_start, _⟩ :
      riff_levelStackE) :: (subStart rh).ls = _
    rw [h1, h2, h3, h4]

/-- C7: descend then ascend.  In a session whose pad flag is the parity of the
size (the invariant of the data model), when `riff_seekLevelSub` returns
success, `riff_levelParent` right after it returns success, restores `c_id`,
`c_size`, `c_pos_start`, `pad` and the level stack (so the depth) to their
values before the descend, leaves `pos` where the descend put it, and sets
`c_pos = pos - (c_pos_start + 8)` (a `size_t` difference). -/
theorem descend_ascend_round_trip (rh : riff_handle)
    (hpad : rh.pad = rh.c_size &&& 1)
    (hsub : (riff_seekLevelSub rh).1 = RIFF_ERROR_NONE) :
    (riff_levelParent (riff_seekLevelSub rh).2).1 = RIFF_ERROR_NONE ∧
    (riff_levelParent (riff_seekLevelSub rh).2).2.c_id = rh.c_id ∧
    (riff_levelParent (riff_seekLevelSub rh).2).2.c_size = rh.c_size ∧
    (riff_levelParent (riff_seekLevelSub rh).2).2.c_pos_start = rh.c_pos_start ∧
    (riff_levelParent (riff_seekLevelSub rh).2).2.pad = rh.pad ∧
    (riff_levelParent (riff_seekLevelSub rh).2).2.ls = rh.ls ∧
    (riff_levelParent (riff_seekLevelSub rh).2).2.pos = (riff_seekLevelSub rh).2.pos ∧
    (riff_levelParent (riff_seekLevelSub rh).2).2.c_pos =
      sub64 (riff_seekLevelSub rh).2.pos (add64 rh.c_pos_start 8) := by
  obtain ⟨ty, hls⟩ := seekLevelSub_success rh hsub
  have hlp : riff_levelParent (riff_seekLevelSub rh).2 =
      (RIFF_ERROR_NONE, stack_pop (riff_seekLevelSub rh).2) := by
    unfold riff_levelParent
    rw [hls]
    rfl
  rw [hlp, stack_pop_cons _ _ _ hls]
  refine ⟨rfl, rfl, rfl, rfl, hpad.symm, rfl, rfl, ?_⟩
  exact sub64_sub64 _ _ _

/-- C7 on `exList`: after descend and ascend the current chunk is the list
again, the cursor is at 32 and the offset in the chunk is 12. -/
theorem descend_ascend_round_trip_witness :
    (riff_levelParent (riff_seekLevelSub exListOpen).2).1 = RIFF_ERROR_NONE ∧
    (riff_levelParent (riff_seekLevelSub exListOpen).2).2.c_id = tagLIST ∧
    (riff_levelParent (riff_seekLevelSub exListOpen).2).2.c_size = 20 ∧
    (riff_levelParent (riff_seekLevelSub exListOpen).2).2.ls = [] ∧
    (riff_levelParent (riff_seekLevelSub exListOpen).2).2.c_pos = 12 :=
  have h := descend_ascend_round_trip exListOpen (by decide) (by decide)
  ⟨h.1, h.2.1, h.2.2.1, h.2.2.2.2.2.1, h.2.2.2.2.2.2.2⟩

/-! ## Rewind and whole-tree validation -/

/-- C8, evaluated on the stream `exDs64` with no operation between open and
rewind: open succeeds and leaves the cursor at 28, eight bytes into the "ds64"
chunk; `riff_rewind` succeeds and leaves the cursor at 20, at the data start of
that chunk.  The position after rewind is not the position after open. -/
theorem riff_rewind_after_ds64_open :
    (riff_open_file riff_handleAllocate exDs64 0 0).1 = RIFF_ERROR_NONE ∧
    exDs64Open.pos = 28 ∧ exDs64Open.c_pos = 8 ∧
    (riff_rewind exDs64Open).1 = RIFF_ERROR_NONE ∧
    (riff_rewind exDs64Open).2.pos = 20 ∧ (riff_rewind exDs64Open).2.c_pos = 0 := by
  decide

theorem seekNextChunk_ls (rh : riff_handle) : (riff_seekNextChunk rh).2.ls = rh.ls := by
  unfold riff_seekNextChunk
  simp only
  split_ifs
  · rfl
  · rfl
  · rw [readChunkHeader_ls]; rfl

theorem seekLevelStart_ls (rh : riff_handle) : (riff_seekLevelStart rh).2.ls = rh.ls := by
  unfold riff_seekLevelStart
  simp only
  rw [readChunkHeader_ls]
  unfold seek_file
  split <;> rfl

theorem stack_pop_ls (rh : riff_handle) : (stack_pop rh).ls = rh.ls.tail := by
  cases h : rh.ls with
  | nil =>
    unfold stack_pop
    split
    · rw [h]; rfl
    · rename_i h0; rw [h0] at h; cases h
  | cons f rest => rw [stack_pop_cons rh f rest h]; rfl

theorem rewindLoop_ls (n : Nat) :
    ∀ rh : riff_handle, rh.ls.length ≤ n → (rewindLoop n rh).ls = [] := by
  induction n with
  | zero =>
    intro rh h
    exact List.length_eq_zero.mp (Nat.le_zero.mp h)
  | succ n ih =>
    intro rh h
    unfold rewindLoop
    split_ifs with h0
    · apply ih
      rw [stack_pop_ls, List.length_tail]
      omega
    · exact List.length_eq_zero.mp (by omega)

theorem rewind_ls (rh : riff_handle) : (riff_rewind rh).2.ls = [] := by
  unfold riff_rewind
  rw [seekLevelStart_ls]
  exact rewindLoop_ls _ _ (Nat.le_refl _)

/-- A run of `riff_recursiveLevelValidate` that reports success has left
exactly one level: its only successful exit is the `riff_levelParent` at the
end of the list. -/
theorem recursiveLevelValidate_depth (fuel : Nat) :
    ∀ (rh rh' : riff_handle),
      riff_recursiveLevelValidate fuel rh = some (RIFF_ERROR_NONE, rh') →
      rh'.ls.length + 1 = rh.ls.length := by
  induction fuel with
  | zero =>
    intro rh rh' h
    simp [riff_recursiveLevelValidate] at h
  | succ fuel ih =>
    intro rh rh' h
    unfold riff_recursiveLevelValidate at h
    have hnext := seekNextChunk_ls rh
    generalize riff_seekNextChunk rh = p at h hnext
    obtain ⟨r1, rh1⟩ := p
    simp only at h hnext
    by_cases hr1 : r1 = RIFF_ERROR_NONE
    · subst hr1
      simp only [ne_eq, not_true_eq_false, if_false] at h
      by_cases hl : notListTag rh1.c_id = true
      · simp only [hl, Bool.not_true, Bool.false_eq_true, if_false] at h
        rw [← hnext]
        exact ih rh1 rh' h
      · simp only [hl, Bool.not_false, if_true] at h
        have hsub : (riff_seekLevelSub rh1).1 = RIFF_ERROR_NONE →
            ∃ ty, (riff_seekLevelSub rh1).2.ls =
              ⟨rh1.c_id, rh1.c_size, rh1.c_pos_start, ty⟩ :: rh1.ls :=
          seekLevelSub_success rh1
        generalize riff_seekLevelSub rh1 = q at h hsub
        obtain ⟨r2, rh2⟩ := q
        simp only at h hsub
        by_cases hr2 : r2 = RIFF_ERROR_NONE
        · subst hr2
          simp only [ne_eq, not_true_eq_false, if_false] at h
          obtain ⟨ty, hls2⟩ := hsub rfl
          cases hin : riff_recursiveLevelValidate fuel rh2 with
          | none => rw [hin] at h; simp at h
          | some o =>
            obtain ⟨r3, rh3⟩ := o
            rw [hin] at h
            simp only at h
            by_cases hr3 : r3 = RIFF_ERROR_NONE
            · subst hr3
              simp only [ne_eq, not_true_eq_false, if_false] at h
              have e1 := ih rh2 rh3 hin
              have e2 := ih rh3 rh' h
              rw [hls2, List.length_cons] at e1
              rw [← hnext]
              omega
            · simp only [ne_eq, hr3, not_false_eq_true, if_true, Option.some.injEq,
                Prod.mk.injEq] at h
              exact h.1.elim
        · simp only [ne_eq, hr2, not_false_eq_true, if_true, Option.some.injEq,
            Prod.mk.injEq] at h
          exact h.1.elim
    · simp only [ne_eq, hr1, not_false_eq_true, if_true] at h
      by_cases he : r1 = RIFF_ERROR_EOCL
      · simp only [he, if_true, Option.some.injEq] at h
        unfold riff_levelParent at h
        split_ifs at h with h0
        · simp only [Prod.mk.injEq] at h
          exact absurd h.1 (by decide)
        · simp only [Prod.mk.injEq, true_and] at h
          rw [← h, stack_pop_ls, List.length_tail, ← hnext]
          omega
      · simp only [he, if_false, Option.some.injEq, Prod.mk.injEq] at h
        exact absurd h.1 hr1

/-- On no session and with no amount of fuel does `riff_fileValidate` report
success: the outermost level ends in `riff_levelParent` at depth 0. -/
theorem riff_fileValidate_never_succeeds (fuel : Nat) (rh rh' : riff_handle) :
    riff_fileValidate fuel rh ≠ some (RIFF_ERROR_NONE, rh') := by
  intro h
  unfold riff_fileValidate at h
  have hls := rewind_ls rh
  generalize riff_rewind rh = p at h hls
  obtain ⟨r, rh0⟩ := p
  simp only at h hls
  by_cases hr : r = RIFF_ERROR_NONE
  · subst hr
    simp only [ne_eq, not_true_eq_false, if_false] at h
    have := recursiveLevelValidate_depth fuel rh0 rh' h
    rw [hls] at this
    simp at this
  · simp only [ne_eq, hr, not_false_eq_true, if_true, Option.some.injEq, Prod.mk.injEq] at h
    exact h.1.elim

/-- C9, evaluated on the well-formed stream of the claim ("RIFF" 28 "WAVE"
"fmt " 16 and 16 zero bytes): open succeeds, and `riff_fileValidate`, with any
fuel that lets it run at all, returns -1 (the code of `riff_levelParent` at
depth 0), not `RIFF_ERROR_NONE`. -/
theorem riff_fileValidate_wellformed_wave :
    (riff_open_file riff_handleAllocate exWave 0 0).1 = RIFF_ERROR_NONE ∧
    ∀ fuel : Nat, (riff_fileValidate (fuel + 1) exWaveOpen).map Prod.fst = some (-1) :=
  ⟨by decide, fun _ => rfl⟩

/-- C10, evaluated on `exFirstList`, whose first chunk is a list with a child of
unprintable tag: open succeeds with the list as current chunk, the first
`riff_seekNextChunk` of the validation already reports the end of the level, so
the list is never entered, and `riff_fileValidate` returns -1 and not
`RIFF_ERROR_ILLID`.  With the same list as second chunk (`exSecondList`) the
validation does return `RIFF_ERROR_ILLID`. -/
theorem riff_fileValidate_skips_first_chunk :
    (riff_open_file riff_handleAllocate exFirstList 0 0).1 = RIFF_ERROR_NONE ∧
    exFirstListOpen.c_id = tagLIST ∧
    (riff_seekNextChunk (riff_rewind exFirstListOpen).2).1 = RIFF_ERROR_EOCL ∧
    (∀ fuel : Nat,
      (riff_fileValidate (fuel + 1) exFirstListOpen).map Prod.fst = some (-1)) ∧
    (∀ fuel : Nat,
      (riff_fileValidate (fuel + 2) exSecondListOpen).map Prod.fst = some RIFF_ERROR_ILLID) :=
  ⟨by decide, by decide, by decide, fun _ => rfl, fun _ => rfl⟩

/-! ## The outer header -/

theorem list_length_twelve {α : Type} (l : List α) (h : l.length = 12) :
    ∃ a0 a1 a2 a3 a4 a5 a6 a7 a8 a9 a10 a11, l = [a0, a1, a2, a3, a4, a5, a6, a7, a8, a9, a10, a11] := by
  match l, h with
  | [a0, a1, a2, a3, a4, a5, a6, a7, a8, a9, a10, a11], _ =>
    exact ⟨a0, a1, a2, a3, a4, a5, a6, a7, a8, a9, a10, a11, rfl⟩

/-- The branches of `riff_readHeader` after a complete outer header with a
valid tag; `p` is the result of `riff_readChunkHeader` on the first chunk. -/
theorem readHeader_cases (rh : riff_handle) (i0 i1 i2 i3 s0 s1 s2 s3 t0 t1 t2 t3 : Byte)
    (h12 : (read_file rh 12).1 = [i0, i1, i2, i3, s0, s1, s2, s3, t0, t1, t2, t3])
    (hid : (⟨i0, i1, i2, i3⟩ : FourCC) = tagRIFF ∨ (⟨i0, i1, i2, i3⟩ : FourCC) = tagBW64)
    (p : Int × riff_handle)
    (hp : riff_readChunkHeader
      (outerState rh ⟨i0, i1, i2, i3⟩ (convUInt32LE s0 s1 s2 s3) ⟨t0, t1, t2, t3⟩) = p) :
    (p.1 ≠ RIFF_ERROR_NONE → riff_readHeader rh = p) ∧
    (p.1 = RIFF_ERROR_NONE → ¬ (p.2.h_size = 0xFFFFFFFF ∧ p.2.c_id = tagDs64) →
      riff_readHeader rh = sizeCompare p.2) ∧
    (p.1 = RIFF_ERROR_NONE → (p.2.h_size = 0xFFFFFFFF ∧ p.2.c_id = tagDs64) →
      ∀ l0 l1 l2 l3 u0 u1 u2 u3 : Byte,
        (riff_readInChunk p.2 8).1 = [l0, l1, l2, l3, u0, u1, u2, u3] →
        riff_readHeader rh = sizeCompare { (riff_readInChunk p.2 8).2 with
          h_size := ((convUInt32LE u0 u1 u2 u3 <<< 32) % 2 ^ 64) ||| convUInt32LE l0 l1 l2 l3 }) ∧
    (p.1 = RIFF_ERROR_NONE → (p.2.h_size = 0xFFFFFFFF ∧ p.2.c_id = tagDs64) →
      (riff_readInChunk p.2 8).1.length ≠ 8 →
        riff_readHeader rh = (RIFF_ERROR_ICSIZE, (riff_readInChunk p.2 8).2)) := by
  have h2 : read_file rh 12 =
      ([i0, i1, i2, i3, s0, s1, s2, s3, t0, t1, t2, t3], { rh with fpos := rh.fpos + 12 }) := by
    apply Prod.ext
    · exact h12
    · rw [read_file_snd, h12]; rfl
  have hid' : ¬ ((⟨i0, i1, i2, i3⟩ : FourCC) ≠ tagRIFF ∧ (⟨i0, i1, i2, i3⟩ : FourCC) ≠ tagBW64) := by
    tauto
  have hlen : ([i0, i1, i2, i3, s0, s1, s2, s3, t0, t1, t2, t3] : List Byte).length = 12 := rfl
  have main : riff_readHeader rh =
      (match p with
       | (r, rh) =>
          if r ≠ RIFF_ERROR_NONE then (r, rh)
          else if rh.h_size = 0xFFFFFFFF ∧ rh.c_id = tagDs64 then
            match riff_readInChunk rh 8 with
            | ([l0, l1, l2, l3, u0, u1, u2, u3], rh) =>
              sizeCompare { rh with
                h_size := ((convUInt32LE u0 u1 u2 u3 <<< 32) % 2 ^ 64) ||| convUInt32LE l0 l1 l2 l3 }
            | (_, rh) => (RIFF_ERROR_ICSIZE, rh)
          else sizeCompare rh) := by
    unfold riff_readHeader
    simp only [RIFF_HEADER_SIZE]
    rw [h2]
    dsimp only
    rw [hlen, if_neg hid']
    unfold outerState at hp
    rw [hp]
    obtain ⟨r, q⟩ := p
    dsimp only
    unfold sizeCompare
    rfl
  obtain ⟨r, q⟩ := p
  rw [main]
  dsimp only
  refine ⟨fun h => ?_, fun h hn => ?_, fun h hd l0 l1 l2 l3 u0 u1 u2 u3 hl => ?_, fun h hd hl => ?_⟩
  · rw [if_pos h]
  · rw [if_neg (fun hh => hh h), if_neg hn]
  · rw [if_neg (fun hh => hh h), if_pos hd]
    have h3 : riff_readInChunk q 8 = ([l0, l1, l2, l3, u0, u1, u2, u3], (riff_readInChunk q 8).2) :=
      Prod.ext hl rfl
    rw [h3]
  · rw [if_neg (fun hh => hh h), if_pos hd]
    split
    · rename_i heq
      rw [heq] at hl
      exact absurd rfl hl
    · rename_i heq
      rw [heq]

theorem ds64_size_eq (hi lo : Nat) (hhi : hi < 2 ^ 32) (hlo : lo < 2 ^ 32) :
    ((hi <<< 32) % 2 ^ 64) ||| lo = 2 ^ 32 * hi + lo := by
  rw [Nat.shiftLeft_eq, Nat.mul_comm, Nat.mod_eq_of_lt (by omega),
    ← Nat.mul_add_lt_is_or hlo]

/-- A successful `riff_readChunkHeader` has read eight bytes that pass the
three tests, and leaves `headerState`. -/
theorem readChunkHeader_none (rh : riff_handle)
    (h : (riff_readChunkHeader rh).1 = RIFF_ERROR_NONE) :
    ∃ a0 a1 a2 a3 s0 s1 s2 s3,
      (read_file rh 8).1 = [a0, a1, a2, a3, s0, s1, s2, s3] ∧
      riff_readChunkHeader rh = (RIFF_ERROR_NONE, headerState rh a0 a1 a2 a3 s0 s1 s2 s3) ∧
      illegalTag ⟨a0, a1, a2, a3⟩ = false ∧
      ¬ enclosingBound rh <
        add64 (add64 (add64 rh.pos 8) (convUInt32LE s0 s1 s2 s3))
          (convUInt32LE s0 s1 s2 s3 &&& 1) := by
  by_cases h8 : (read_file rh 8).1.length = 8
  · obtain ⟨a0, a1, a2, a3, s0, s1, s2, s3, hl⟩ := list_length_eight _ h8
    refine ⟨a0, a1, a2, a3, s0, s1, s2, s3, hl, ?_⟩
    rw [readChunkHeader_eq rh a0 a1 a2 a3 s0 s1 s2 s3 hl] at h ⊢
    dsimp only at h
    split_ifs at h ⊢ with h1 h2 h3
    · exact absurd h (by decide)
    · exact absurd h (by decide)
    · exact absurd h (by decide)
    · exact ⟨rfl, Bool.eq_false_iff.mpr h1, h2⟩
  · rw [readChunkHeader_short rh h8] at h
    exact absurd h (show ¬ (RIFF_ERROR_EOF = RIFF_ERROR_NONE) by decide)

theorem readChunkHeader_size (rh : riff_handle) : (riff_readChunkHeader rh).2.size = rh.size := by
  by_cases h8 : (read_file rh 8).1.length = 8
  · obtain ⟨a0, a1, a2, a3, s0, s1, s2, s3, hl⟩ := list_length_eight _ h8
    rw [readChunkHeader_eq rh a0 a1 a2 a3 s0 s1 s2 s3 hl]
    rfl
  · rw [readChunkHeader_short rh h8]
    rfl

theorem readChunkHeader_h_size (rh : riff_handle) :
    (riff_readChunkHeader rh).2.h_size = rh.h_size := by
  by_cases h8 : (read_file rh 8).1.length = 8
  · obtain ⟨a0, a1, a2, a3, s0, s1, s2, s3, hl⟩ := list_length_eight _ h8
    rw [readChunkHeader_eq rh a0 a1 a2 a3 s0 s1 s2 s3 hl]
    rfl
  · rw [readChunkHeader_short rh h8]
    rfl

theorem sizeCompare_snd (rh : riff_handle) : (sizeCompare rh).2 = rh := by
  unfold sizeCompare
  split_ifs <;> rfl

theorem sizeCompare_fst (rh : riff_handle) :
    (rh.size = 0 ∨ rh.size = add64 rh.h_size 8 → (sizeCompare rh).1 = RIFF_ERROR_NONE) ∧
    (rh.size ≠ 0 → add64 rh.h_size 8 < rh.size → (sizeCompare rh).1 = RIFF_ERROR_EXDAT) ∧
    (rh.size ≠ 0 → rh.size < add64 rh.h_size 8 → (sizeCompare rh).1 = RIFF_ERROR_EOF) := by
  unfold sizeCompare
  refine ⟨fun h => ?_, fun h0 h => ?_, fun h0 h => ?_⟩
  · rcases h with h | h
    · rw [if_neg (fun hh => hh h)]
    · by_cases h0 : rh.size = 0
      · rw [if_neg (fun hh => hh h0)]
      · rw [if_pos h0, if_neg (fun hh => hh h)]
  · rw [if_pos h0, if_pos (by omega), if_pos (by omega)]
  · rw [if_pos h0, if_pos (by omega), if_neg (by omega)]

theorem readInChunk_fst (rh : riff_handle) (k : Nat) (h : k ≤ sub64 rh.c_size rh.c_pos) :
    (riff_readInChunk rh k).1 = (read_file rh k).1 := by
  unfold riff_readInChunk
  simp only [if_neg (Nat.not_lt.mpr h)]

/-- C11 (amended): the `ds64` size override of `riff_readHeader`.  For an input
whose outer tag is "RIFF" or "BW64", whose 32 bit outer size is `0xFFFFFFFF`,
whose first chunk header carries the tag "ds64" and a declared size of at least
8 and is accepted by `riff_readChunkHeader`, and whose first 8 payload bytes
can be read, the parsed `h_size` is `high * 2^32 + low`, with `low` the
little-endian number in payload bytes 0..3 and `high` the one in bytes 4..7. -/
theorem riff_readHeader_ds64_size (rh : riff_handle)
    (i0 i1 i2 i3 t0 t1 t2 t3 c0 c1 c2 c3 l0 l1 l2 l3 u0 u1 u2 u3 : Byte)
    (h12 : (read_file rh 12).1 = [i0, i1, i2, i3, 0xFF, 0xFF, 0xFF, 0xFF, t0, t1, t2, t3])
    (hid : (⟨i0, i1, i2, i3⟩ : FourCC) = tagRIFF ∨ (⟨i0, i1, i2, i3⟩ : FourCC) = tagBW64)
    (h8 : (read_file (outerState rh ⟨i0, i1, i2, i3⟩ 0xFFFFFFFF ⟨t0, t1, t2, t3⟩) 8).1 =
      [0x64, 0x73, 0x36, 0x34, c0, c1, c2, c3])
    (hacc : (riff_readChunkHeader
      (outerState rh ⟨i0, i1, i2, i3⟩ 0xFFFFFFFF ⟨t0, t1, t2, t3⟩)).1 = RIFF_ERROR_NONE)
    (hsz : 8 ≤ convUInt32LE c0 c1 c2 c3)
    (hpay : (read_file (headerState (outerState rh ⟨i0, i1, i2, i3⟩ 0xFFFFFFFF ⟨t0, t1, t2, t3⟩)
      0x64 0x73 0x36 0x34 c0 c1 c2 c3) 8).1 = [l0, l1, l2, l3, u0, u1, u2, u3]) :
    (riff_readHeader rh).2.h_size =
      2 ^ 32 * (u0.val + 2 ^ 8 * u1.val + 2 ^ 16 * u2.val + 2 ^ 24 * u3.val) +
        (l0.val + 2 ^ 8 * l1.val + 2 ^ 16 * l2.val + 2 ^ 24 * l3.val) := by
  have hFF : convUInt32LE 0xFF 0xFF 0xFF 0xFF = 0xFFFFFFFF := by decide
  have hp := readChunkHeader_eq _ 0x64 0x73 0x36 0x34 c0 c1 c2 c3 h8
  obtain ⟨a0, a1, a2, a3, e0, e1, e2, e3, hl, hq, -, -⟩ := readChunkHeader_none _ hacc
  rw [h8] at hl
  simp only [List.cons.injEq, and_true] at hl
  obtain ⟨ha0, ha1, ha2, ha3, he0, he1, he2, he3⟩ := hl
  subst ha0 ha1 ha2 ha3 he0 he1 he2 he3
  have hle : 8 ≤ sub64 (headerState
      (outerState rh ⟨i0, i1, i2, i3⟩ 0xFFFFFFFF ⟨t0, t1, t2, t3⟩)
      0x64 0x73 0x36 0x34 c0 c1 c2 c3).c_size (headerState
      (outerState rh ⟨i0, i1, i2, i3⟩ 0xFFFFFFFF ⟨t0, t1, t2, t3⟩)
      0x64 0x73 0x36 0x34 c0 c1 c2 c3).c_pos := by
    have := convUInt32LE_lt c0 c1 c2 c3
    simp only [headerState]
    unfold sub64; omega
  have hin := readInChunk_fst _ 8 hle
  rw [hpay] at hin
  have hc := readHeader_cases rh i0 i1 i2 i3 0xFF 0xFF 0xFF 0xFF t0 t1 t2 t3 h12 hid _ rfl
  rw [hFF, hq] at hc
  have hc2 := hc.2.2.1 rfl ⟨rfl, rfl⟩ l0 l1 l2 l3 u0 u1 u2 u3 hin
  rw [hc2, sizeCompare_snd]
  show ((convUInt32LE u0 u1 u2 u3 <<< 32) % 2 ^ 64) ||| convUInt32LE l0 l1 l2 l3 = _
  rw [ds64_size_eq _ _ (convUInt32LE_lt _ _ _ _) (convUInt32LE_lt _ _ _ _),
    convUInt32LE_eq, convUInt32LE_eq]

/-- C11 at the values of the claim: low = 0x00000010 and high = 0x00000001 give
`h_size = 0x0000000100000010`, and open succeeds. -/
theorem riff_readHeader_ds64_size_witness :
    (riff_open_file riff_handleAllocate exDs64Big 0 0).1 = RIFF_ERROR_NONE ∧
    (riff_open_file riff_handleAllocate exDs64Big 0 0).2.h_size = 0x0000000100000010 :=
  ⟨by decide,
   riff_readHeader_ds64_size { riff_handleAllocate with fh := exDs64Big }
    0x42 0x57 0x36 0x34 0x57 0x41 0x56 0x45 8 0 0 0 0x10 0 0 0 1 0 0 0
    (by decide) (Or.inr rfl) (by decide) (by decide) (by decide) (by decide)⟩

/-- C11 as stated fails on `exDs64Oversize`: the outer tag is valid, the outer
size is `0xFFFFFFFF`, the first chunk has the tag "ds64" and the declared size
`0xFFFFFFF8 >= 8`, the 8 payload bytes (low = 0x10, high = 1) can be read, and
yet open returns `RIFF_ERROR_ICSIZE` with `h_size` still `0xFFFFFFFF`: the
chunk header is tested against the provisional bound before the override. -/
theorem riff_readHeader_ds64_oversized :
    (riff_open_file riff_handleAllocate exDs64Oversize 0 0).1 = RIFF_ERROR_ICSIZE ∧
    (riff_open_file riff_handleAllocate exDs64Oversize 0 0).2.h_id = tagBW64 ∧
    (riff_open_file riff_handleAllocate exDs64Oversize 0 0).2.c_id = tagDs64 ∧
    (riff_open_file riff_handleAllocate exDs64Oversize 0 0).2.c_size = 0xFFFFFFF8 ∧
    (read_file (riff_open_file riff_handleAllocate exDs64Oversize 0 0).2 8).1 =
      [0x10, 0, 0, 0, 1, 0, 0, 0] ∧
    (riff_open_file riff_handleAllocate exDs64Oversize 0 0).2.h_size = 0xFFFFFFFF ∧
    (riff_open_file riff_handleAllocate exDs64Oversize 0 0).2.h_size ≠ 2 ^ 32 * 1 + 0x10 :=
  ⟨by decide, by decide, by decide, by decide, by decide, by decide, by decide⟩

theorem readInChunk_size (rh : riff_handle) (k : Nat) :
    (riff_readInChunk rh k).2.size = rh.size := rfl

/-- Once the outer tag is valid, the first chunk header is accepted and the
"ds64" payload, where it is read, is delivered, the return of `riff_readHeader`
is that of the comparison of `rh->size` with the `size_t` sum `h_size + 8`. -/
theorem readHeader_size_branches (rh : riff_handle)
    (i0 i1 i2 i3 s0 s1 s2 s3 t0 t1 t2 t3 : Byte)
    (h12 : (read_file rh 12).1 = [i0, i1, i2, i3, s0, s1, s2, s3, t0, t1, t2, t3])
    (hid : (⟨i0, i1, i2, i3⟩ : FourCC) = tagRIFF ∨ (⟨i0, i1, i2, i3⟩ : FourCC) = tagBW64)
    (hacc : (riff_readChunkHeader
      (outerState rh ⟨i0, i1, i2, i3⟩ (convUInt32LE s0 s1 s2 s3) ⟨t0, t1, t2, t3⟩)).1 =
        RIFF_ERROR_NONE)
    (hds : convUInt32LE s0 s1 s2 s3 = 0xFFFFFFFF →
      (riff_readChunkHeader
        (outerState rh ⟨i0, i1, i2, i3⟩ (convUInt32LE s0 s1 s2 s3) ⟨t0, t1, t2, t3⟩)).2.c_id =
          tagDs64 →
      (riff_readInChunk (riff_readChunkHeader
        (outerState rh ⟨i0, i1, i2, i3⟩ (convUInt32LE s0 s1 s2 s3) ⟨t0, t1, t2, t3⟩)).2
          8).1.length = 8) :
    (rh.size = 0 ∨ rh.size = add64 (riff_readHeader rh).2.h_size 8 →
      (riff_readHeader rh).1 = RIFF_ERROR_NONE) ∧
    (rh.size ≠ 0 → add64 (riff_readHeader rh).2.h_size 8 < rh.size →
      (riff_readHeader rh).1 = RIFF_ERROR_EXDAT) ∧
    (rh.size ≠ 0 → rh.size < add64 (riff_readHeader rh).2.h_size 8 →
      (riff_readHeader rh).1 = RIFF_ERROR_EOF) := by
  have hc := readHeader_cases rh i0 i1 i2 i3 s0 s1 s2 s3 t0 t1 t2 t3 h12 hid _ rfl
  have key : ∃ X : riff_handle, riff_readHeader rh = sizeCompare X ∧ X.size = rh.size := by
    by_cases hd : (riff_readChunkHeader
        (outerState rh ⟨i0, i1, i2, i3⟩ (convUInt32LE s0 s1 s2 s3) ⟨t0, t1, t2, t3⟩)).2.h_size =
          0xFFFFFFFF ∧
        (riff_readChunkHeader
          (outerState rh ⟨i0, i1, i2, i3⟩ (convUInt32LE s0 s1 s2 s3) ⟨t0, t1, t2, t3⟩)).2.c_id =
            tagDs64
    · have hlen := hds (by rw [← hd.1, readChunkHeader_h_size]; rfl) hd.2
      obtain ⟨l0, l1, l2, l3, u0, u1, u2, u3, hl⟩ := list_length_eight _ hlen
      refine ⟨_, hc.2.2.1 hacc hd l0 l1 l2 l3 u0 u1 u2 u3 hl, ?_⟩
      show (riff_readInChunk _ 8).2.size = rh.size
      rw [readInChunk_size, readChunkHeader_size]
      rfl
    · refine ⟨_, hc.2.1 hacc hd, ?_⟩
      rw [readChunkHeader_size]
      rfl
  obtain ⟨X, hX, hsize⟩ := key
  rw [hX, sizeCompare_snd, ← hsize]
  exact sizeCompare_fst X

/-- C12 as stated fails on `exDs64Max` opened with the expected size 36: the
outer tag is valid, the first chunk header and the 8 bytes of the "ds64"
payload are read without error, the parsed `h_size` is `2^64 - 1`, the
expected size 36 is nonzero and smaller than `h_size + 8 = 2^64 + 7`, and open
returns `RIFF_ERROR_EXDAT`: the sum the code computes is 7. -/
theorem riff_readHeader_expected_size_wrap :
    (riff_readChunkHeader
      (outerState { riff_handleAllocate with fh := exDs64Max, size := 36 }
        tagBW64 0xFFFFFFFF ⟨0x57, 0x41, 0x56, 0x45⟩)).1 = RIFF_ERROR_NONE ∧
    (riff_readInChunk (riff_readChunkHeader
      (outerState { riff_handleAllocate with fh := exDs64Max, size := 36 }
        tagBW64 0xFFFFFFFF ⟨0x57, 0x41, 0x56, 0x45⟩)).2 8).1.length = 8 ∧
    (riff_open_file riff_handleAllocate exDs64Max 0 36).2.h_size = 2 ^ 64 - 1 ∧
    36 < (riff_open_file riff_handleAllocate exDs64Max 0 36).2.h_size + 8 ∧
    (riff_open_file riff_handleAllocate exDs64Max 0 36).1 = RIFF_ERROR_EXDAT ∧
    add64 (riff_open_file riff_handleAllocate exDs64Max 0 36).2.h_size 8 = 7 :=
  ⟨by decide, by decide, by decide, by decide, by decide, by decide⟩

/-- C12 (amended): the expected-size check of `riff_readHeader`.  For an input
whose outer tag is valid, whose first chunk header is accepted by
`riff_readChunkHeader` and, where the `ds64` branch is taken, whose 8 payload
bytes are delivered: with `S` the expected size `rh->size` and `H` the parsed
`h_size`, open returns success when `S` is 0 or equals the `size_t` value of
`H + 8`, `RIFF_ERROR_EXDAT` when `S` is nonzero and greater than it, and
`RIFF_ERROR_EOF` when `S` is nonzero and smaller.  For every input with
`H + 8 < 2^64` the same holds with the plain sum `H + 8`. -/
theorem riff_readHeader_expected_size (rh : riff_handle)
    (i0 i1 i2 i3 s0 s1 s2 s3 t0 t1 t2 t3 : Byte)
    (h12 : (read_file rh 12).1 = [i0, i1, i2, i3, s0, s1, s2, s3, t0, t1, t2, t3])
    (hid : (⟨i0, i1, i2, i3⟩ : FourCC) = tagRIFF ∨ (⟨i0, i1, i2, i3⟩ : FourCC) = tagBW64)
    (hacc : (riff_readChunkHeader
      (outerState rh ⟨i0, i1, i2, i3⟩ (convUInt32LE s0 s1 s2 s3) ⟨t0, t1, t2, t3⟩)).1 =
        RIFF_ERROR_NONE)
    (hds : convUInt32LE s0 s1 s2 s3 = 0xFFFFFFFF →
      (riff_readChunkHeader
        (outerState rh ⟨i0, i1, i2, i3⟩ (convUInt32LE s0 s1 s2 s3) ⟨t0, t1, t2, t3⟩)).2.c_id =
          tagDs64 →
      (riff_readInChunk (riff_readChunkHeader
        (outerState rh ⟨i0, i1, i2, i3⟩ (convUInt32LE s0 s1 s2 s3) ⟨t0, t1, t2, t3⟩)).2
          8).1.length = 8) :
    ((rh.size = 0 ∨ rh.size = add64 (riff_readHeader rh).2.h_size 8 →
        (riff_readHeader rh).1 = RIFF_ERROR_NONE) ∧
      (rh.size ≠ 0 → add64 (riff_readHeader rh).2.h_size 8 < rh.size →
        (riff_readHeader rh).1 = RIFF_ERROR_EXDAT) ∧
      (rh.size ≠ 0 → rh.size < add64 (riff_readHeader rh).2.h_size 8 →
        (riff_readHeader rh).1 = RIFF_ERROR_EOF)) ∧
    ((riff_readHeader rh).2.h_size + 8 < 2 ^ 64 →
      (rh.size = 0 ∨ rh.size = (riff_readHeader rh).2.h_size + 8 →
        (riff_readHeader rh).1 = RIFF_ERROR_NONE) ∧
      (rh.size ≠ 0 → (riff_readHeader rh).2.h_size + 8 < rh.size →
        (riff_readHeader rh).1 = RIFF_ERROR_EXDAT) ∧
      (rh.size ≠ 0 → rh.size < (riff_readHeader rh).2.h_size + 8 →
        (riff_readHeader rh).1 = RIFF_ERROR_EOF)) := by
  have key := readHeader_size_branches rh i0 i1 i2 i3 s0 s1 s2 s3 t0 t1 t2 t3 h12 hid hacc hds
  refine ⟨key, fun hw => ?_⟩
  rw [add64_of_lt hw] at key
  exact key

/-- C12 (amended) on `exSecondList` (outer size 32, so `h_size + 8 = 40`):
expected size 0 and 40 open, 50 gives `RIFF_ERROR_EXDAT`, 30 gives
`RIFF_ERROR_EOF`. -/
theorem riff_readHeader_expected_size_witness :
    (riff_open_file riff_handleAllocate exSecondList 0 0).1 = RIFF_ERROR_NONE ∧
    (riff_open_file riff_handleAllocate exSecondList 0 40).1 = RIFF_ERROR_NONE ∧
    (riff_open_file riff_handleAllocate exSecondList 0 50).1 = RIFF_ERROR_EXDAT ∧
    (riff_open_file riff_handleAllocate exSecondList 0 30).1 = RIFF_ERROR_EOF :=
  ⟨((riff_readHeader_expected_size { riff_handleAllocate with fh := exSecondList }
      0x52 0x49 0x46 0x46 32 0 0 0 0x57 0x41 0x56 0x45
      (by decide) (Or.inl rfl) (by decide) (by decide)).2 (by decide)).1 (Or.inl rfl),
   ((riff_readHeader_expected_size { riff_handleAllocate with fh := exSecondList, size := 40 }
      0x52 0x49 0x46 0x46 32 0 0 0 0x57 0x41 0x56 0x45
      (by decide) (Or.inl rfl) (by decide) (by decide)).2 (by decide)).1 (Or.inr (by decide)),
   ((riff_readHeader_expected_size { riff_handleAllocate with fh := exSecondList, size := 50 }
      0x52 0x49 0x46 0x46 32 0 0 0 0x57 0x41 0x56 0x45
      (by decide) (Or.inl rfl) (by decide) (by decide)).2 (by decide)).2.1
        (by decide) (by decide),
   ((riff_readHeader_expected_size { riff_handleAllocate with fh := exSecondList, size := 30 }
      0x52 0x49 0x46 0x46 32 0 0 0 0x57 0x41 0x56 0x45
      (by decide) (Or.inl rfl) (by decide) (by decide)).2 (by decide)).2.2
        (by decide) (by decide)⟩


theorem readChunkHeader_none_cps (rh : riff_handle)
    (h : (riff_readChunkHeader rh).1 = RIFF_ERROR_NONE) :
    (riff_readChunkHeader rh).2.c_pos_start = rh.pos := by
  obtain ⟨a0, a1, a2, a3, s0, s1, s2, s3, -, hq, -, -⟩ := readChunkHeader_none rh h
  rw [hq]
  rfl

/-- C13: pad-byte skipping.  In a session whose pad flag is the parity of the
size (the invariant of the data model), when `riff_seekNextChunk` returns
success the header position of the new chunk is the old
`c_pos_start + 8 + c_size + (c_size mod 2)` (a `size_t` sum): one byte beyond
the payload is skipped when the old size is odd and none when it is even. -/
theorem riff_seekNextChunk_pad_skip (rh : riff_handle)
    (hpad : rh.pad = rh.c_size &&& 1)
    (h : (riff_seekNextChunk rh).1 = RIFF_ERROR_NONE) :
    (riff_seekNextChunk rh).2.c_pos_start =
      add64 (add64 (add64 rh.c_pos_start 8) rh.c_size) (rh.c_size % 2) ∧
    (rh.c_size % 2 = 1 →
      (riff_seekNextChunk rh).2.c_pos_start = add64 (add64 (add64 rh.c_pos_start 8) rh.c_size) 1) ∧
    (rh.c_size % 2 = 0 →
      (riff_seekNextChunk rh).2.c_pos_start = add64 (add64 rh.c_pos_start 8) rh.c_size) := by
  have main : (riff_seekNextChunk rh).2.c_pos_start =
      add64 (add64 (add64 rh.c_pos_start 8) rh.c_size) (rh.c_size % 2) := by
    rw [← and_one_eq_mod, ← hpad]
    unfold riff_seekNextChunk at h ⊢
    simp only [RIFF_CHUNK_DATA_OFFSET, seek_file] at h ⊢
    split_ifs at h ⊢ with h1 h2
    · exact absurd h (show ¬ (RIFF_ERROR_EXDAT = RIFF_ERROR_NONE) by decide)
    · exact absurd h (show ¬ (RIFF_ERROR_EOCL = RIFF_ERROR_NONE) by decide)
    · rw [readChunkHeader_none_cps _ h]
  refine ⟨main, fun h1 => ?_, fun h0 => ?_⟩
  · rw [main, h1]
  · rw [main, h0]
    have := add64_lt (add64 rh.c_pos_start 8) rh.c_size
    unfold add64 at this ⊢
    omega

/-- C13 on two streams: after the chunk of size 1 at 12 (`exOdd`) the next header
is at 22 = 12 + 8 + 1 + 1; after the chunk of size 0 at 12 (`exSecondList`) it
is at 20 = 12 + 8 + 0. -/
theorem riff_seekNextChunk_pad_skip_witness :
    (riff_seekNextChunk exOddOpen).2.c_pos_start = 22 ∧
    (riff_seekNextChunk exSecondListOpen).2.c_pos_start = 20 :=
  ⟨(riff_seekNextChunk_pad_skip exOddOpen (by decide) (by decide)).2.1 (by decide),
   (riff_seekNextChunk_pad_skip exSecondListOpen (by decide) (by decide)).2.2 (by decide)⟩

/-! ## Counting the chunks of a level -/

theorem count_le_length_succ (id t : FourCC) (ts : List FourCC) :
    (t :: ts).count id ≤ ts.length + 1 := by
  have := List.count_le_length id (t :: ts)
  simpa using this

theorem seekLevelStart_nil (rh : riff_handle) (h : rh.ls = []) :
    riff_seekLevelStart rh = riff_readChunkHeader (levelZero rh) := by
  unfold riff_seekLevelStart levelZero seek_file
  simp only [RIFF_CHUNK_DATA_OFFSET]
  rw [h]

/-- C16 as stated fails on `exNestedInside`: `riff_seekLevelParentStart` succeeds
and makes the list (tag "LIST", header at 20) the current chunk, with the
cursor at its data start 28; `riff_levelParent` followed by
`riff_seekLevelStart` succeeds and makes the first chunk of the parent level
(tag "fmt ", header at 12) current, with the cursor at 20. -/
theorem riff_seekLevelParentStart_differs :
    (riff_seekLevelParentStart exNestedInside).1 = RIFF_ERROR_NONE ∧
    (riff_seekLevelParentStart exNestedInside).2.c_id = tagLIST ∧
    (riff_seekLevelParentStart exNestedInside).2.pos = 28 ∧
    (riff_levelParent exNestedInside).1 = RIFF_ERROR_NONE ∧
    (riff_seekLevelStart (riff_levelParent exNestedInside).2).1 = RIFF_ERROR_NONE ∧
    (riff_seekLevelStart (riff_levelParent exNestedInside).2).2.c_id = tagFmt ∧
    (riff_seekLevelStart (riff_levelParent exNestedInside).2).2.pos = 20 ∧
    (riff_seekLevelParentStart exNestedInside).2 ≠
      (riff_seekLevelStart (riff_levelParent exNestedInside).2).2 :=
  ⟨by decide, by decide, by decide, by decide, by decide, by decide, by decide, by decide⟩

/-- C16 (amended): `riff_seekLevelParentStart` is `riff_levelParent` followed,
when that returns success, by `riff_seekChunkStart`.  At depth 0 it returns -1
and leaves the session as it was; at positive depth it returns success, makes
the top frame the current chunk and puts cursor and channel at the data start
of that chunk, with offset 0. -/
theorem riff_seekLevelParentStart_composite (rh : riff_handle) :
    riff_seekLevelParentStart rh =
      (if (riff_levelParent rh).1 ≠ RIFF_ERROR_NONE then riff_levelParent rh
       else riff_seekChunkStart (riff_levelParent rh).2) ∧
    (rh.ls = [] → riff_seekLevelParentStart rh = (-1, rh)) ∧
    (∀ f rest, rh.ls = f :: rest →
      riff_seekLevelParentStart rh =
        (RIFF_ERROR_NONE,
          { rh with
            ls := rest
            c_pos_start := f.c_pos_start
            c_id := f.c_id
            c_size := f.c_size
            pad := f.c_size &&& 1
            pos := add64 f.c_pos_start 8
            c_pos := 0
            fpos := add64 f.c_pos_start 8 })) := by
  have h1 : riff_seekLevelParentStart rh =
      (if (riff_levelParent rh).1 ≠ RIFF_ERROR_NONE then riff_levelParent rh
       else riff_seekChunkStart (riff_levelParent rh).2) := by
    unfold riff_seekLevelParentStart
    generalize riff_levelParent rh = p
    obtain ⟨r, q⟩ := p
    rfl
  refine ⟨h1, fun hnil => ?_, fun f rest hls => ?_⟩
  · rw [h1]
    unfold riff_levelParent
    rw [hnil]
    rfl
  · have hlp : riff_levelParent rh = (RIFF_ERROR_NONE, stack_pop rh) := by
      unfold riff_levelParent
      rw [if_neg (by rw [hls]; simp)]
    rw [h1, hlp, stack_pop_cons rh f rest hls]
    rfl

/-- C16 (amended) at two sessions: at depth 0 (`exWaveOpen`) the call returns -1
and changes nothing; inside the list of `exNested` it returns success with the
list as current chunk and the cursor at 28. -/
theorem riff_seekLevelParentStart_composite_witness :
    riff_seekLevelParentStart exWaveOpen = (-1, exWaveOpen) ∧
    (riff_seekLevelParentStart exNestedInside).2.pos = 28 :=
  ⟨(riff_seekLevelParentStart_composite exWaveOpen).2.1 (by decide),
   by
    have h := (riff_seekLevelParentStart_composite exNestedInside).2.2
      ⟨tagLIST, 16, 20, tagINFO⟩ [] (by decide)
    rw [h]
    decide⟩

/-! ## Scenarios and containment -/

/-- C17 as stated fails: on the 36 byte stream of the claim open does not
return success. -/
theorem riff_readHeader_scenario_not_success :
    ¬ ((riff_open_file riff_handleAllocate exScenario 0 0).1 = RIFF_ERROR_NONE ∧
       (riff_open_file riff_handleAllocate exScenario 0 0).2.c_id = tagFmt ∧
       (riff_open_file riff_handleAllocate exScenario 0 0).2.c_size = 16 ∧
       (riff_seekNextChunk (riff_open_file riff_handleAllocate exScenario 0 0).2).1 =
         RIFF_ERROR_EOCL) := by
  intro h
  exact absurd h.1 (by decide)

/-- C17 (amended): on the 36 byte stream of the claim (outer size 16)
`riff_readHeader` returns `RIFF_ERROR_ICSIZE`, because the first chunk ends at
36, beyond the outer bound 8 + 16 = 24; `c_id` is "fmt ", `c_size` is 16 and a
following `riff_seekNextChunk` returns `RIFF_ERROR_EOCL`.  On the same stream
with the outer size 28 (`exWave`) `riff_readHeader` returns success with the
same `c_id` and `c_size`, and `riff_seekNextChunk` returns `RIFF_ERROR_EOCL`. -/
theorem riff_readHeader_scenario :
    ((riff_open_file riff_handleAllocate exScenario 0 0).1 = RIFF_ERROR_ICSIZE ∧
     (riff_open_file riff_handleAllocate exScenario 0 0).2.c_id = tagFmt ∧
     (riff_open_file riff_handleAllocate exScenario 0 0).2.c_size = 16 ∧
     (riff_seekNextChunk (riff_open_file riff_handleAllocate exScenario 0 0).2).1 =
       RIFF_ERROR_EOCL) ∧
    ((riff_open_file riff_handleAllocate exWave 0 0).1 = RIFF_ERROR_NONE ∧
     (riff_open_file riff_handleAllocate exWave 0 0).2.c_id = tagFmt ∧
     (riff_open_file riff_handleAllocate exWave 0 0).2.c_size = 16 ∧
     (riff_seekNextChunk (riff_open_file riff_handleAllocate exWave 0 0).2).1 =
       RIFF_ERROR_EOCL) :=
  ⟨⟨by decide, by decide, by decide, by decide⟩, ⟨by decide, by decide, by decide, by decide⟩⟩

/-- C18, evaluated on two streams whose current chunk after open is a "LIST"
chunk of size 4 with the type tag "INFO": when the stream ends with the list
(`exEmptyList`) `riff_seekLevelSub` returns `RIFF_ERROR_EOF`; when a sibling
chunk follows (`exEmptyListThen`) it reads the header of the sibling as first
child and returns `RIFF_ERROR_ICSIZE`.  In both cases the frame has been
pushed: the depth is 1 after the failed call.  On `exEmptyList` the two
following calls do what the claim says: `riff_seekNextChunk` returns
`RIFF_ERROR_EOCL` and `riff_levelParent` restores the list. -/
theorem riff_seekLevelSub_empty_list :
    (riff_open_file riff_handleAllocate exEmptyList 0 0).1 = RIFF_ERROR_NONE ∧
    exEmptyListOpen.c_id = tagLIST ∧ exEmptyListOpen.c_size = 4 ∧
    (riff_seekLevelSub exEmptyListOpen).1 = RIFF_ERROR_EOF ∧
    (riff_seekLevelSub exEmptyListOpen).2.ls.length = 1 ∧
    (riff_seekNextChunk (riff_seekLevelSub exEmptyListOpen).2).1 = RIFF_ERROR_EOCL ∧
    (riff_levelParent (riff_seekLevelSub exEmptyListOpen).2).1 = RIFF_ERROR_NONE ∧
    (riff_levelParent (riff_seekLevelSub exEmptyListOpen).2).2.c_id = tagLIST ∧
    (riff_open_file riff_handleAllocate exEmptyListThen 0 0).1 = RIFF_ERROR_NONE ∧
    exEmptyListThenOpen.c_id = tagLIST ∧ exEmptyListThenOpen.c_size = 4 ∧
    (riff_seekLevelSub exEmptyListThenOpen).1 = RIFF_ERROR_ICSIZE ∧
    (riff_seekLevelSub exEmptyListThenOpen).2.c_id = ⟨0x64, 0x61, 0x74, 0x61⟩ ∧
    (riff_seekLevelSub exEmptyListThenOpen).2.ls.length = 1 :=
  ⟨by decide, by decide, by decide, by decide, by decide, by decide, by decide, by decide,
   by decide, by decide, by decide, by decide, by decide, by decide⟩

/-- C20, evaluated on `exDs64Zero` right after open: open returns success, the
depth is 0, and the current chunk ends at `c_pos_start + 8 + c_size + pad = 28`
while the enclosing bound `pos_start + 8 + h_size` is 8.  A `riff_rewind` on
that session re-reads the same header and returns `RIFF_ERROR_ICSIZE`. -/
theorem riff_readHeader_ds64_containment :
    (riff_open_file riff_handleAllocate exDs64Zero 0 0).1 = RIFF_ERROR_NONE ∧
    exDs64ZeroOpen.ls = [] ∧
    exDs64ZeroOpen.c_pos_start + 8 + exDs64ZeroOpen.c_size + exDs64ZeroOpen.pad = 28 ∧
    exDs64ZeroOpen.pos_start + 8 + exDs64ZeroOpen.h_size = 8 ∧
    ¬ (exDs64ZeroOpen.c_pos_start + 8 + exDs64ZeroOpen.c_size + exDs64ZeroOpen.pad ≤
        exDs64ZeroOpen.pos_start + 8 + exDs64ZeroOpen.h_size) ∧
    (riff_rewind exDs64ZeroOpen).1 = RIFF_ERROR_ICSIZE :=
  ⟨by decide, by decide, by decide, by decide, by decide, by decide⟩

/-! ## The offset invariant along error-free navigation -/

theorem enclosingBound_nil (rh : riff_handle) (h : rh.ls = []) (hb : rh.pos_start + 8 + rh.h_size ≤ 2 ^ 63) :
    enclosingBound rh = rh.pos_start + 8 + rh.h_size := by
  unfold enclosingBound
  rw [h]
  simp only [add64]
  omega

theorem enclosingBound_cons (rh : riff_handle) (f : riff_levelStackE) (rest : List riff_levelStackE)
    (h : rh.ls = f :: rest) (hb : f.c_pos_start + 8 + f.c_size ≤ 2 ^ 63) :
    enclosingBound rh = f.c_pos_start + 8 + f.c_size := by
  unfold enclosingBound
  rw [h]
  simp only [add64]
  omega

/-- The header reader keeps the invariant when it is called with the cursor at
`P`, behind the type tag of the enclosing list, and succeeds. -/
theorem Inv_readChunkHeader (x : riff_handle)
    (hP : x.pos ≤ 2 ^ 63 + 12)
    (hchain : ∀ f rest, x.ls = f :: rest →
      f.c_pos_start + 12 ≤ x.pos ∧ f.c_size < 2 ^ 32 ∧
      f.c_pos_start + 8 + f.c_size + f.c_size % 2 ≤ 2 ^ 63 ∧
      Chain f.c_pos_start f.c_size rest)
    (hb : x.pos_start + 8 + x.h_size ≤ 2 ^ 63)
    (h : (riff_readChunkHeader x).1 = RIFF_ERROR_NONE) :
    Inv (riff_readChunkHeader x).2 := by
  obtain ⟨a0, a1, a2, a3, s0, s1, s2, s3, -, hq, -, hbound⟩ := readChunkHeader_none x h
  rw [hq]
  have hs := convUInt32LE_lt s0 s1 s2 s3
  have hend : add64 (add64 (add64 x.pos 8) (convUInt32LE s0 s1 s2 s3))
      (convUInt32LE s0 s1 s2 s3 &&& 1) =
      x.pos + 8 + convUInt32LE s0 s1 s2 s3 + convUInt32LE s0 s1 s2 s3 % 2 := by
    rw [and_one_eq_mod]
    simp only [add64]
    omega
  rw [hend] at hbound
  have hp8 : add64 x.pos 8 = x.pos + 8 := by simp only [add64]; omega
  cases hls : x.ls with
  | nil =>
    rw [enclosingBound_nil x hls hb] at hbound
    refine ⟨hs, Nat.zero_le _, ?_, and_one_eq_mod _, ?_, ?_, hb⟩
    · show add64 x.pos 8 = x.pos + 8 + 0
      rw [hp8]
    · show x.pos + 8 + convUInt32LE s0 s1 s2 s3 + (convUInt32LE s0 s1 s2 s3 &&& 1) ≤ 2 ^ 63
      rw [and_one_eq_mod]
      omega
    · show Chain x.pos (convUInt32LE s0 s1 s2 s3) x.ls
      rw [hls]
      trivial
  | cons f rest =>
    obtain ⟨c1, c2, c3, c4⟩ := hchain f rest hls
    rw [enclosingBound_cons x f rest hls (by omega)] at hbound
    refine ⟨hs, Nat.zero_le _, ?_, and_one_eq_mod _, ?_, ?_, hb⟩
    · show add64 x.pos 8 = x.pos + 8 + 0
      rw [hp8]
    · show x.pos + 8 + convUInt32LE s0 s1 s2 s3 + (convUInt32LE s0 s1 s2 s3 &&& 1) ≤ 2 ^ 63
      rw [and_one_eq_mod]
      omega
    · show Chain x.pos (convUInt32LE s0 s1 s2 s3) x.ls
      rw [hls]
      exact ⟨c1, by omega, c2, c3, c4⟩

theorem readChunkHeader_code (x : riff_handle) :
    (riff_readChunkHeader x).1 = RIFF_ERROR_NONE ∨ (riff_readChunkHeader x).1 = RIFF_ERROR_ILLID ∨
    (riff_readChunkHeader x).1 = RIFF_ERROR_ICSIZE ∨ (riff_readChunkHeader x).1 = RIFF_ERROR_EOF := by
  by_cases h8 : (read_file x 8).1.length = 8
  · obtain ⟨a0, a1, a2, a3, s0, s1, s2, s3, hl⟩ := list_length_eight _ h8
    rw [readChunkHeader_eq x a0 a1 a2 a3 s0 s1 s2 s3 hl]
    dsimp only
    split_ifs <;> simp
  · rw [readChunkHeader_short x h8]
    simp

theorem readChunkHeader_benign (x : riff_handle)
    (h : benignCode (riff_readChunkHeader x).1 = true) :
    (riff_readChunkHeader x).1 = RIFF_ERROR_NONE := by
  rcases readChunkHeader_code x with h1 | h1 | h1 | h1
  · exact h1
  · rw [h1] at h; exact absurd h (by decide)
  · rw [h1] at h; exact absurd h (by decide)
  · rw [h1] at h; exact absurd h (by decide)

theorem Inv_seekNextChunk (rh : riff_handle) (hi : Inv rh)
    (hb : benignCode (riff_seekNextChunk rh).1 = true) :
    Inv (riff_seekNextChunk rh).2 := by
  unfold riff_seekNextChunk at hb ⊢
  simp only [RIFF_CHUNK_DATA_OFFSET, seek_file] at hb ⊢
  split_ifs at hb ⊢ with h1 h2
  · exact hi
  · exact hi
  · have hnew : add64 (add64 (add64 rh.c_pos_start 8) rh.c_size) rh.pad =
        rh.c_pos_start + 8 + rh.c_size + rh.pad := by
      have := hi.end_le
      simp only [add64]
      omega
    have key := readChunkHeader_benign _ hb
    refine Inv_readChunkHeader _ ?_ ?_ hi.bound_le key
    · show add64 (add64 (add64 rh.c_pos_start 8) rh.c_size) rh.pad ≤ 2 ^ 63 + 12
      rw [hnew]
      have := hi.end_le
      omega
    · intro f rest hls
      have hc := hi.chain
      rw [show rh.ls = f :: rest from hls] at hc
      obtain ⟨c1, c2, c3, c4, c5⟩ := hc
      refine ⟨?_, c3, c4, c5⟩
      show f.c_pos_start + 12 ≤ add64 (add64 (add64 rh.c_pos_start 8) rh.c_size) rh.pad
      rw [hnew]
      omega

theorem seekLevelStart_cons (rh : riff_handle) (f : riff_levelStackE)
    (rest : List riff_levelStackE) (h : rh.ls = f :: rest) :
    riff_seekLevelStart rh =
      riff_readChunkHeader
        { rh with pos := add64 f.c_pos_start 12, c_pos := 0, fpos := add64 f.c_pos_start 12 } := by
  unfold riff_seekLevelStart seek_file
  simp only [RIFF_CHUNK_DATA_OFFSET]
  rw [h]

theorem Inv_seekLevelStart (rh : riff_handle) (hi : Inv rh)
    (hb : benignCode (riff_seekLevelStart rh).1 = true) :
    Inv (riff_seekLevelStart rh).2 := by
  have hc := hi.chain
  have he := hi.end_le
  have hbd := hi.bound_le
  cases hls : rh.ls with
  | nil =>
    rw [seekLevelStart_nil rh hls] at hb ⊢
    have key := readChunkHeader_benign _ hb
    refine Inv_readChunkHeader _ ?_ ?_ ?_ key
    · show add64 rh.pos_start 12 ≤ 2 ^ 63 + 12
      simp only [add64]
      omega
    · intro f rest h
      have : rh.ls = f :: rest := h
      rw [hls] at this
      cases this
    · exact hbd
  | cons f rest =>
    rw [hls] at hc
    rw [seekLevelStart_cons rh f rest hls] at hb ⊢
    obtain ⟨c1, c2, c3, c4, c5⟩ := hc
    have key := readChunkHeader_benign _ hb
    refine Inv_readChunkHeader _ ?_ ?_ ?_ key
    · show add64 f.c_pos_start 12 ≤ 2 ^ 63 + 12
      simp only [add64]
      omega
    · intro f' rest' h
      have h' : rh.ls = f' :: rest' := h
      rw [hls] at h'
      cases h'
      refine ⟨?_, c3, c4, c5⟩
      show f.c_pos_start + 12 ≤ add64 f.c_pos_start 12
      simp only [add64]
      omega
    · exact hbd

theorem Inv_stack_pop (rh : riff_handle) (hi : Inv rh) (f : riff_levelStackE)
    (rest : List riff_levelStackE) (hls : rh.ls = f :: rest) : Inv (stack_pop rh) := by
  rw [stack_pop_cons rh f rest hls]
  have hc := hi.chain
  rw [hls] at hc
  obtain ⟨c1, c2, c3, c4, c5⟩ := hc
  have h1 := hi.pos_le
  have h2 := hi.pos_eq
  have h3 := hi.end_le
  have hsub : sub64 (sub64 rh.pos f.c_pos_start) 8 = rh.pos - f.c_pos_start - 8 := by
    simp only [sub64]
    omega
  refine ⟨c3, ?_, ?_, and_one_eq_mod _, ?_, c5, hi.bound_le⟩
  · show sub64 (sub64 rh.pos f.c_pos_start) 8 ≤ f.c_size
    rw [hsub]
    omega
  · show rh.pos = f.c_pos_start + 8 + sub64 (sub64 rh.pos f.c_pos_start) 8
    rw [hsub]
    omega
  · show f.c_pos_start + 8 + f.c_size + (f.c_size &&& 1) ≤ 2 ^ 63
    rw [and_one_eq_mod]
    exact c4

theorem Inv_levelParent (rh : riff_handle) (hi : Inv rh) : Inv (riff_levelParent rh).2 := by
  unfold riff_levelParent
  split_ifs with h
  · exact hi
  · cases hls : rh.ls with
    | nil => rw [hls] at h; simp at h
    | cons f rest => exact Inv_stack_pop rh hi f rest hls

theorem Inv_rewindLoop (n : Nat) : ∀ rh : riff_handle, Inv rh → Inv (rewindLoop n rh) := by
  induction n with
  | zero => intro rh hi; exact hi
  | succ n ih =>
    intro rh hi
    unfold rewindLoop
    split_ifs with h
    · cases hls : rh.ls with
      | nil => rw [hls] at h; simp at h
      | cons f rest => exact ih _ (Inv_stack_pop rh hi f rest hls)
    · exact hi

theorem Inv_rewind (rh : riff_handle) (hi : Inv rh)
    (hb : benignCode (riff_rewind rh).1 = true) : Inv (riff_rewind rh).2 := by
  unfold riff_rewind at hb ⊢
  exact Inv_seekLevelStart _ (Inv_rewindLoop _ rh hi) hb

theorem Inv_readInChunk (rh : riff_handle) (hi : Inv rh) (k : Nat) :
    Inv (riff_readInChunk rh k).2 := by
  have h1 := hi.pos_le
  have h2 := hi.pos_eq
  have h3 := hi.end_le
  have h4 := hi.size_lt
  have hleft : sub64 rh.c_size rh.c_pos = rh.c_size - rh.c_pos := by
    simp only [sub64]; omega
  have hlen := read_file_length_le rh (if sub64 rh.c_size rh.c_pos < k then
    sub64 rh.c_size rh.c_pos else k)
  have hn : (read_file rh (if sub64 rh.c_size rh.c_pos < k then
      sub64 rh.c_size rh.c_pos else k)).1.length ≤ rh.c_size - rh.c_pos := by
    rw [hleft] at hlen ⊢
    split_ifs at hlen ⊢ <;> omega
  unfold riff_readInChunk
  simp only
  generalize (read_file rh (if sub64 rh.c_size rh.c_pos < k then
      sub64 rh.c_size rh.c_pos else k)).1.length = n at hn
  refine ⟨hi.size_lt, ?_, ?_, hi.pad_eq, hi.end_le, hi.chain, hi.bound_le⟩
  · show add64 rh.c_pos n ≤ rh.c_size
    simp only [add64]; omega
  · show add64 rh.pos n = rh.c_pos_start + 8 + add64 rh.c_pos n
    simp only [add64]; omega

theorem Inv_seekInChunk (rh : riff_handle) (hi : Inv rh) (off : Nat) :
    Inv (riff_seekInChunk rh off).2 := by
  have h3 := hi.end_le
  unfold riff_seekInChunk
  simp only [RIFF_CHUNK_DATA_OFFSET, seek_file, gt_iff_lt]
  split_ifs with h
  · exact hi
  · refine ⟨hi.size_lt, Nat.not_lt.mp h, ?_, hi.pad_eq, hi.end_le, hi.chain, hi.bound_le⟩
    show add64 (add64 rh.c_pos_start 8) off = rh.c_pos_start + 8 + off
    simp only [add64]; omega

theorem Inv_seekChunkStart (rh : riff_handle) (hi : Inv rh) :
    Inv (riff_seekChunkStart rh).2 := by
  have h3 := hi.end_le
  unfold riff_seekChunkStart
  simp only [RIFF_CHUNK_DATA_OFFSET, seek_file]
  refine ⟨hi.size_lt, Nat.zero_le _, ?_, hi.pad_eq, hi.end_le, hi.chain, hi.bound_le⟩
  show add64 rh.c_pos_start 8 = rh.c_pos_start + 8 + 0
  simp only [add64]; omega

theorem subStart_pos (rh : riff_handle) (hi : Inv rh) :
    (subStart rh).pos = rh.c_pos_start + 8 := by
  have h1 := hi.pos_eq
  have h2 := hi.end_le
  unfold subStart
  split_ifs with h
  · show add64 rh.c_pos_start 8 = rh.c_pos_start + 8
    simp only [add64]; omega
  · omega

theorem Inv_seekLevelSub (rh : riff_handle) (hi : Inv rh)
    (hb : benignCode (riff_seekLevelSub rh).1 = true) :
    Inv (riff_seekLevelSub rh).2 := by
  by_cases ht : notListTag rh.c_id = true
  · unfold riff_seekLevelSub
    rw [if_pos ht]
    exact hi
  · by_cases hs : rh.c_size < 4
    · unfold riff_seekLevelSub
      rw [if_neg ht, if_pos hs]
      exact hi
    · rw [seekLevelSub_eq rh (Bool.eq_false_iff.mpr ht) (Nat.not_lt.mp hs)] at hb ⊢
      obtain ⟨f1, f2, f3, f4⟩ := subStart_frame rh
      have hp := subStart_pos rh hi
      have he := hi.end_le
      have hpad := hi.pad_eq
      have hst : (subStart rh).pos_start + 8 + (subStart rh).h_size ≤ 2 ^ 63 := by
        have hb0 := hi.bound_le
        unfold subStart
        split_ifs <;> exact hb0
      split_ifs at hb ⊢ with hill
      · exact absurd hb (show ¬ (benignCode RIFF_ERROR_ILLID = true) by decide)
      · have key := readChunkHeader_benign _ hb
        refine Inv_readChunkHeader _ ?_ ?_ hst key
        · show add64 (subStart rh).pos 4 ≤ 2 ^ 63 + 12
          rw [hp]
          simp only [add64]; omega
        · intro f rest hls
          have hls' : (⟨(subStart rh).c_id, (subStart rh).c_size, (subStart rh).c_pos_start,
              typeBuf (read_file (subStart rh) 4).1⟩ : riff_levelStackE) :: (subStart rh).ls =
              f :: rest := hls
          rw [f1, f2, f3, f4] at hls'
          simp only [List.cons.injEq] at hls'
          obtain ⟨hf, hr⟩ := hls'
          subst hf hr
          refine ⟨?_, hi.size_lt, ?_, hi.chain⟩
          · show rh.c_pos_start + 12 ≤ add64 (subStart rh).pos 4
            rw [hp]
            simp only [add64]; omega
          · show rh.c_pos_start + 8 + rh.c_size + rh.c_size % 2 ≤ 2 ^ 63
            omega

theorem Inv_seekLevelParentStart (rh : riff_handle) (hi : Inv rh) :
    Inv (riff_seekLevelParentStart rh).2 := by
  unfold riff_seekLevelParentStart
  have h := Inv_levelParent rh hi
  generalize riff_levelParent rh = p at h
  obtain ⟨r, q⟩ := p
  dsimp only at h ⊢
  split_ifs
  · exact h
  · exact Inv_seekChunkStart q h

theorem Inv_seekLevelParentNext (rh : riff_handle) (hi : Inv rh)
    (hb : benignCode (riff_seekLevelParentNext rh).1 = true) :
    Inv (riff_seekLevelParentNext rh).2 := by
  unfold riff_seekLevelParentNext at hb ⊢
  have h := Inv_levelParent rh hi
  generalize riff_levelParent rh = p at h hb
  obtain ⟨r, q⟩ := p
  dsimp only at h hb ⊢
  split_ifs at hb ⊢
  · exact h
  · exact Inv_seekNextChunk q h hb

theorem Inv_levelValidateLoop (fuel : Nat) :
    ∀ (rh : riff_handle) (r : Int) (rh' : riff_handle), Inv rh →
      levelValidateLoop fuel rh = some (r, rh') → benignCode r = true → Inv rh' := by
  induction fuel with
  | zero =>
    intro rh r rh' hi h
    simp [levelValidateLoop] at h
  | succ fuel ih =>
    intro rh r rh' hi h hb
    unfold levelValidateLoop at h
    have hstep := Inv_seekNextChunk rh hi
    generalize riff_seekNextChunk rh = p at h hstep
    obtain ⟨r1, rh1⟩ := p
    simp only at h hstep
    by_cases hr1 : r1 = RIFF_ERROR_NONE
    · subst hr1
      simp only [ne_eq, not_true_eq_false, if_false] at h
      exact ih rh1 r rh' (hstep (by decide)) h hb
    · simp only [ne_eq, hr1, not_false_eq_true, if_true] at h
      by_cases he : r1 = RIFF_ERROR_EOCL
      · subst he
        simp only [if_true, Option.some.injEq, Prod.mk.injEq] at h
        rw [← h.2]
        exact hstep (by decide)
      · simp only [he, if_false, Option.some.injEq, Prod.mk.injEq] at h
        rw [← h.2]
        apply hstep
        rw [h.1]
        exact hb

theorem Inv_levelValidate (fuel : Nat) (rh : riff_handle) (r : Int) (rh' : riff_handle)
    (hi : Inv rh) (h : riff_levelValidate fuel rh = some (r, rh')) (hb : benignCode r = true) :
    Inv rh' := by
  unfold riff_levelValidate at h
  have hstep := Inv_seekLevelStart rh hi
  generalize riff_seekLevelStart rh = p at h hstep
  obtain ⟨r1, rh1⟩ := p
  simp only at h hstep
  by_cases hr1 : r1 = RIFF_ERROR_NONE
  · subst hr1
    simp only [ne_eq, not_true_eq_false, if_false] at h
    exact Inv_levelValidateLoop fuel rh1 r rh' (hstep (by decide)) h hb
  · simp only [ne_eq, hr1, not_false_eq_true, if_true, Option.some.injEq, Prod.mk.injEq] at h
    rw [← h.2]
    apply hstep
    rw [h.1]
    exact hb

theorem Inv_recursiveLevelValidate (fuel : Nat) :
    ∀ (rh : riff_handle) (r : Int) (rh' : riff_handle), Inv rh →
      riff_recursiveLevelValidate fuel rh = some (r, rh') → benignCode r = true → Inv rh' := by
  induction fuel with
  | zero =>
    intro rh r rh' hi h
    simp [riff_recursiveLevelValidate] at h
  | succ fuel ih =>
    intro rh r rh' hi h hb
    unfold riff_recursiveLevelValidate at h
    have hstep := Inv_seekNextChunk rh hi
    generalize riff_seekNextChunk rh = p at h hstep
    obtain ⟨r1, rh1⟩ := p
    simp only at h hstep
    by_cases hr1 : r1 = RIFF_ERROR_NONE
    · subst hr1
      have hi1 : Inv rh1 := hstep (by decide)
      simp only [ne_eq, not_true_eq_false, if_false] at h
      by_cases hl : notListTag rh1.c_id = true
      · simp only [hl, Bool.not_true, Bool.false_eq_true, if_false] at h
        exact ih rh1 r rh' hi1 h hb
      · simp only [hl, Bool.not_false, if_true] at h
        have hsub := Inv_seekLevelSub rh1 hi1
        generalize riff_seekLevelSub rh1 = q at h hsub
        obtain ⟨r2, rh2⟩ := q
        simp only at h hsub
        by_cases hr2 : r2 = RIFF_ERROR_NONE
        · subst hr2
          have hi2 : Inv rh2 := hsub (by decide)
          simp only [ne_eq, not_true_eq_false, if_false] at h
          cases hin : riff_recursiveLevelValidate fuel rh2 with
          | none => rw [hin] at h; simp at h
          | some o =>
            obtain ⟨r3, rh3⟩ := o
            rw [hin] at h
            simp only at h
            by_cases hr3 : r3 = RIFF_ERROR_NONE
            · subst hr3
              simp only [ne_eq, not_true_eq_false, if_false] at h
              exact ih rh3 r rh' (ih rh2 _ rh3 hi2 hin (by decide)) h hb
            · simp only [ne_eq, hr3, not_false_eq_true, if_true, Option.some.injEq,
                Prod.mk.injEq] at h
              rw [← h.2]
              refine ih rh2 r3 rh3 hi2 hin ?_
              rw [h.1]
              exact hb
        · simp only [ne_eq, hr2, not_false_eq_true, if_true, Option.some.injEq,
            Prod.mk.injEq] at h
          rw [← h.2]
          apply hsub
          rw [h.1]
          exact hb
    · simp only [ne_eq, hr1, not_false_eq_true, if_true] at h
      by_cases he : r1 = RIFF_ERROR_EOCL
      · subst he
        simp only [if_true, Option.some.injEq] at h
        have := Inv_levelParent rh1 (hstep (by decide))
        rw [h] at this
        exact this
      · simp only [he, if_false, Option.some.injEq, Prod.mk.injEq] at h
        rw [← h.2]
        apply hstep
        rw [h.1]
        exact hb

theorem Inv_fileValidate (fuel : Nat) (rh : riff_handle) (r : Int) (rh' : riff_handle)
    (hi : Inv rh) (h : riff_fileValidate fuel rh = some (r, rh')) (hb : benignCode r = true) :
    Inv rh' := by
  unfold riff_fileValidate at h
  have hstep := Inv_rewind rh hi
  generalize riff_rewind rh = p at h hstep
  obtain ⟨r1, rh1⟩ := p
  simp only at h hstep
  by_cases hr1 : r1 = RIFF_ERROR_NONE
  · subst hr1
    simp only [ne_eq, not_true_eq_false, if_false] at h
    exact Inv_recursiveLevelValidate fuel rh1 r rh' (hstep (by decide)) h hb
  · simp only [ne_eq, hr1, not_false_eq_true, if_true, Option.some.injEq, Prod.mk.injEq] at h
    rw [← h.2]
    apply hstep
    rw [h.1]
    exact hb

theorem Inv_amountLoop (fuel : Nat) :
    ∀ (rh : riff_handle) (c v : Int) (rh' : riff_handle), Inv rh →
      amountLoop fuel c rh = some (v, rh') → v ≠ -1 → Inv rh' := by
  induction fuel with
  | zero =>
    intro rh c v rh' hi h
    simp [amountLoop] at h
  | succ fuel ih =>
    intro rh c v rh' hi h hv
    unfold amountLoop at h
    have hstep := Inv_seekNextChunk rh hi
    generalize riff_seekNextChunk rh = p at h hstep
    obtain ⟨r1, rh1⟩ := p
    simp only at h hstep
    by_cases hr1 : r1 = RIFF_ERROR_NONE
    · subst hr1
      simp only [ne_eq, not_true_eq_false, if_false] at h
      exact ih rh1 _ v rh' (hstep (by decide)) h hv
    · simp only [ne_eq, hr1, not_false_eq_true, if_true] at h
      by_cases he : r1 = RIFF_ERROR_EOCL
      · subst he
        simp only [if_true, Option.some.injEq, Prod.mk.injEq] at h
        rw [← h.2]
        exact hstep (by decide)
      · simp only [he, if_false, Option.some.injEq, Prod.mk.injEq] at h
        exact absurd h.1.symm hv

theorem Inv_amountWithIDLoop (id : FourCC) (fuel : Nat) :
    ∀ (rh : riff_handle) (c v : Int) (rh' : riff_handle), Inv rh →
      amountWithIDLoop id fuel c rh = some (v, rh') → v ≠ -1 → Inv rh' := by
  induction fuel with
  | zero =>
    intro rh c v rh' hi h
    simp [amountWithIDLoop] at h
  | succ fuel ih =>
    intro rh c v rh' hi h hv
    unfold amountWithIDLoop at h
    have hstep := Inv_seekNextChunk rh hi
    generalize riff_seekNextChunk rh = p at h hstep
    obtain ⟨r1, rh1⟩ := p
    simp only at h hstep
    by_cases hr1 : r1 = RIFF_ERROR_NONE
    · subst hr1
      simp only [ne_eq, not_true_eq_false, if_false] at h
      exact ih rh1 _ v rh' (hstep (by decide)) h hv
    · simp only [ne_eq, hr1, not_false_eq_true, if_true] at h
      by_cases he : r1 = RIFF_ERROR_EOCL
      · subst he
        simp only [if_true, Option.some.injEq, Prod.mk.injEq] at h
        rw [← h.2]
        exact hstep (by decide)
      · simp only [he, if_false, Option.some.injEq, Prod.mk.injEq] at h
        exact absurd h.1.symm hv

/-- A successful `riff_readHeader` has read twelve bytes with a valid tag. -/
theorem readHeader_none (rh : riff_handle) (h : (riff_readHeader rh).1 = RIFF_ERROR_NONE) :
    ∃ i0 i1 i2 i3 s0 s1 s2 s3 t0 t1 t2 t3,
      (read_file rh 12).1 = [i0, i1, i2, i3, s0, s1, s2, s3, t0, t1, t2, t3] ∧
      ((⟨i0, i1, i2, i3⟩ : FourCC) = tagRIFF ∨ (⟨i0, i1, i2, i3⟩ : FourCC) = tagBW64) := by
  by_cases h12 : (read_file rh 12).1.length = 12
  · obtain ⟨i0, i1, i2, i3, s0, s1, s2, s3, t0, t1, t2, t3, hl⟩ := list_length_twelve _ h12
    refine ⟨i0, i1, i2, i3, s0, s1, s2, s3, t0, t1, t2, t3, hl, ?_⟩
    by_contra hid
    have h2 : read_file rh 12 =
        ([i0, i1, i2, i3, s0, s1, s2, s3, t0, t1, t2, t3], { rh with fpos := rh.fpos + 12 }) := by
      apply Prod.ext
      · exact hl
      · rw [read_file_snd, hl]; rfl
    have hid' : (⟨i0, i1, i2, i3⟩ : FourCC) ≠ tagRIFF ∧ (⟨i0, i1, i2, i3⟩ : FourCC) ≠ tagBW64 := by
      tauto
    unfold riff_readHeader at h
    simp only [RIFF_HEADER_SIZE] at h
    rw [h2] at h
    dsimp only at h
    rw [if_pos hid'] at h
    exact absurd h (show ¬ (RIFF_ERROR_ILLID = RIFF_ERROR_NONE) by decide)
  · exfalso
    unfold riff_readHeader at h
    simp only [RIFF_HEADER_SIZE] at h
    generalize read_file rh 12 = p at h h12
    obtain ⟨buf, q⟩ := p
    dsimp only at h h12
    split at h
    · exact h12 rfl
    · exact absurd h (show ¬ (RIFF_ERROR_EOF = RIFF_ERROR_NONE) by decide)

theorem readInChunk_c_pos (rh : riff_handle) (k : Nat) :
    (riff_readInChunk rh k).2.c_pos = add64 rh.c_pos (riff_readInChunk rh k).1.length := rfl

theorem readInChunk_pos (rh : riff_handle) (k : Nat) :
    (riff_readInChunk rh k).2.pos = add64 rh.pos (riff_readInChunk rh k).1.length := rfl

theorem readInChunk_frame (rh : riff_handle) (k : Nat) :
    (riff_readInChunk rh k).2.c_size = rh.c_size ∧
    (riff_readInChunk rh k).2.c_pos_start = rh.c_pos_start ∧
    (riff_readInChunk rh k).2.pad = rh.pad ∧
    (riff_readInChunk rh k).2.ls = rh.ls ∧
    (riff_readInChunk rh k).2.pos_start = rh.pos_start := ⟨rfl, rfl, rfl, rfl, rfl⟩

theorem readInChunk_length_le (rh : riff_handle) (k : Nat) :
    (riff_readInChunk rh k).1.length ≤ sub64 rh.c_size rh.c_pos := by
  have h := read_file_length_le rh (if sub64 rh.c_size rh.c_pos < k then
    sub64 rh.c_size rh.c_pos else k)
  have e : (riff_readInChunk rh k).1 = (read_file rh (if sub64 rh.c_size rh.c_pos < k then
    sub64 rh.c_size rh.c_pos else k)).1 := rfl
  rw [e]
  split_ifs at h ⊢ <;> omega

theorem Inv_readHeader (rh : riff_handle) (hpos : rh.pos ≤ 2 ^ 62) (hls : rh.ls = [])
    (h : (riff_readHeader rh).1 = RIFF_ERROR_NONE)
    (hlim : (riff_readHeader rh).2.pos_start + 8 + (riff_readHeader rh).2.h_size ≤ 2 ^ 63) :
    Inv (riff_readHeader rh).2 := by
  obtain ⟨i0, i1, i2, i3, s0, s1, s2, s3, t0, t1, t2, t3, h12, hid⟩ := readHeader_none rh h
  have hc := readHeader_cases rh i0 i1 i2 i3 s0 s1 s2 s3 t0 t1 t2 t3 h12 hid _ rfl
  by_cases hp : (riff_readChunkHeader
      (outerState rh ⟨i0, i1, i2, i3⟩ (convUInt32LE s0 s1 s2 s3) ⟨t0, t1, t2, t3⟩)).1 =
        RIFF_ERROR_NONE
  · obtain ⟨a0, a1, a2, a3, c0, c1, c2, c3, -, hq, -, -⟩ := readChunkHeader_none _ hp
    rw [hq] at hc
    have hcs := convUInt32LE_lt c0 c1 c2 c3
    have hp12 : add64 rh.pos 12 = rh.pos + 12 := by simp only [add64]; omega
    have hp20 : add64 (add64 rh.pos 12) 8 = rh.pos + 12 + 8 := by simp only [add64]; omega
    have x1 : (headerState
        (outerState rh ⟨i0, i1, i2, i3⟩ (convUInt32LE s0 s1 s2 s3) ⟨t0, t1, t2, t3⟩)
        a0 a1 a2 a3 c0 c1 c2 c3).c_pos = 0 := rfl
    have x2 : (headerState
        (outerState rh ⟨i0, i1, i2, i3⟩ (convUInt32LE s0 s1 s2 s3) ⟨t0, t1, t2, t3⟩)
        a0 a1 a2 a3 c0 c1 c2 c3).pos = add64 (add64 rh.pos 12) 8 := rfl
    have x3 : (headerState
        (outerState rh ⟨i0, i1, i2, i3⟩ (convUInt32LE s0 s1 s2 s3) ⟨t0, t1, t2, t3⟩)
        a0 a1 a2 a3 c0 c1 c2 c3).c_pos_start = add64 rh.pos 12 := rfl
    have x4 : (headerState
        (outerState rh ⟨i0, i1, i2, i3⟩ (convUInt32LE s0 s1 s2 s3) ⟨t0, t1, t2, t3⟩)
        a0 a1 a2 a3 c0 c1 c2 c3).c_size = convUInt32LE c0 c1 c2 c3 := rfl
    have x5 : (headerState
        (outerState rh ⟨i0, i1, i2, i3⟩ (convUInt32LE s0 s1 s2 s3) ⟨t0, t1, t2, t3⟩)
        a0 a1 a2 a3 c0 c1 c2 c3).pad = convUInt32LE c0 c1 c2 c3 &&& 1 := rfl
    have x6 : (headerState
        (outerState rh ⟨i0, i1, i2, i3⟩ (convUInt32LE s0 s1 s2 s3) ⟨t0, t1, t2, t3⟩)
        a0 a1 a2 a3 c0 c1 c2 c3).ls = rh.ls := rfl
    rw [and_one_eq_mod] at x5
    rw [hp20] at x2
    rw [hp12] at x3
    rw [hls] at x6
    generalize headerState
        (outerState rh ⟨i0, i1, i2, i3⟩ (convUInt32LE s0 s1 s2 s3) ⟨t0, t1, t2, t3⟩)
        a0 a1 a2 a3 c0 c1 c2 c3 = X at hc x1 x2 x3 x4 x5 x6
    by_cases hd : X.h_size = 0xFFFFFFFF ∧ X.c_id = tagDs64
    · by_cases hl : (riff_readInChunk X 8).1.length = 8
      · obtain ⟨l0, l1, l2, l3, u0, u1, u2, u3, hl8⟩ := list_length_eight _ hl
        have e := hc.2.2.1 rfl hd l0 l1 l2 l3 u0 u1 u2 u3 hl8
        rw [e, sizeCompare_snd] at hlim ⊢
        have q1 := readInChunk_c_pos X 8
        have q2 := readInChunk_pos X 8
        obtain ⟨q3, q4, q5, q6, q7⟩ := readInChunk_frame X 8
        have q8 := readInChunk_length_le X 8
        rw [hl] at q1 q2 q8
        rw [x1] at q1
        rw [x2] at q2
        rw [x3] at q4
        rw [x4] at q3
        rw [x5] at q5
        rw [x6] at q6
        rw [x4, x1] at q8
        have q9 : sub64 (convUInt32LE c0 c1 c2 c3) 0 = convUInt32LE c0 c1 c2 c3 := by
          simp only [sub64]; omega
        rw [q9] at q8
        generalize (riff_readInChunk X 8).2 = Q at q1 q2 q3 q4 q5 q6 q7 hlim ⊢
        refine ⟨?_, ?_, ?_, ?_, ?_, ?_, hlim⟩
        · show Q.c_size < 2 ^ 32
          rw [q3]; exact hcs
        · show Q.c_pos ≤ Q.c_size
          rw [q1, q3]
          simp only [add64]; omega
        · show Q.pos = Q.c_pos_start + 8 + Q.c_pos
          rw [q1, q2, q4]
          simp only [add64]; omega
        · show Q.pad = Q.c_size % 2
          rw [q5, q3]
        · show Q.c_pos_start + 8 + Q.c_size + Q.pad ≤ 2 ^ 63
          rw [q3, q4, q5]; omega
        · show Chain Q.c_pos_start Q.c_size Q.ls
          rw [q6]; trivial
      · have e := hc.2.2.2 rfl hd hl
        rw [e] at h
        exact absurd h (show ¬ (RIFF_ERROR_ICSIZE = RIFF_ERROR_NONE) by decide)
    · have e := hc.2.1 rfl hd
      rw [e, sizeCompare_snd] at hlim ⊢
      refine ⟨?_, ?_, ?_, ?_, ?_, ?_, hlim⟩
      · rw [x4]; exact hcs
      · rw [x1]; exact Nat.zero_le _
      · rw [x1, x2, x3]
      · rw [x5, x4]
      · rw [x3, x4, x5]; omega
      · rw [x6]; trivial
  · have e := hc.1 hp
    rw [e] at h
    exact absurd h hp

theorem Inv_run (op : Op) (rh : riff_handle) (r : Int) (rh' : riff_handle) (hi : Inv rh)
    (h : op.run rh = some (r, rh')) (ha : op.accepts r = true) : Inv rh' := by
  cases op with
  | readInChunk size =>
    simp only [Op.run, Option.some.injEq, Prod.mk.injEq] at h
    rw [← h.2]
    exact Inv_readInChunk rh hi size
  | seekInChunk c_pos =>
    simp only [Op.run, Option.some.injEq] at h
    have := Inv_seekInChunk rh hi c_pos
    rw [h] at this
    exact this
  | seekNextChunk =>
    simp only [Op.run, Option.some.injEq] at h
    have := Inv_seekNextChunk rh hi
    rw [h] at this
    exact this ha
  | seekChunkStart =>
    simp only [Op.run, Option.some.injEq] at h
    have := Inv_seekChunkStart rh hi
    rw [h] at this
    exact this
  | seekLevelStart =>
    simp only [Op.run, Option.some.injEq] at h
    have := Inv_seekLevelStart rh hi
    rw [h] at this
    exact this ha
  | seekLevelSub =>
    simp only [Op.run, Option.some.injEq] at h
    have := Inv_seekLevelSub rh hi
    rw [h] at this
    exact this ha
  | levelParent =>
    simp only [Op.run, Option.some.injEq] at h
    have := Inv_levelParent rh hi
    rw [h] at this
    exact this
  | seekLevelParentStart =>
    simp only [Op.run, Option.some.injEq] at h
    have := Inv_seekLevelParentStart rh hi
    rw [h] at this
    exact this
  | seekLevelParentNext =>
    simp only [Op.run, Option.some.injEq] at h
    have := Inv_seekLevelParentNext rh hi
    rw [h] at this
    exact this ha
  | rewind =>
    simp only [Op.run, Option.some.injEq] at h
    have := Inv_rewind rh hi
    rw [h] at this
    exact this ha
  | levelValidate fuel => exact Inv_levelValidate fuel rh r rh' hi h ha
  | fileValidate fuel => exact Inv_fileValidate fuel rh r rh' hi h ha
  | amountOfChunksInLevel fuel =>
    have hv : r ≠ -1 := by simpa [Op.accepts] using ha
    simp only [Op.run, riff_amountOfChunksInLevel] at h
    have hstep := Inv_seekLevelStart rh hi
    generalize riff_seekLevelStart rh = p at h hstep
    obtain ⟨r1, rh1⟩ := p
    simp only at h hstep
    by_cases hr1 : r1 = RIFF_ERROR_NONE
    · subst hr1
      simp only [ne_eq, not_true_eq_false, if_false] at h
      exact Inv_amountLoop fuel rh1 0 r rh' (hstep (by decide)) h hv
    · simp only [ne_eq, hr1, not_false_eq_true, if_true, Option.some.injEq, Prod.mk.injEq] at h
      exact absurd h.1.symm hv
  | amountOfChunksInLevelWithID fuel id =>
    have hv : r ≠ -1 := by simpa [Op.accepts] using ha
    simp only [Op.run, riff_amountOfChunksInLevelWithID] at h
    have hstep := Inv_seekLevelStart rh hi
    generalize riff_seekLevelStart rh = p at h hstep
    obtain ⟨r1, rh1⟩ := p
    simp only at h hstep
    by_cases hr1 : r1 = RIFF_ERROR_NONE
    · subst hr1
      simp only [ne_eq, not_true_eq_false, if_false] at h
      exact Inv_amountWithIDLoop id fuel rh1 0 r rh' (hstep (by decide)) h hv
    · simp only [ne_eq, hr1, not_false_eq_true, if_true, Option.some.injEq, Prod.mk.injEq] at h
      exact absurd h.1.symm hv

theorem Inv_runOps (ops : List Op) :
    ∀ (rh s : riff_handle), Inv rh → runOps ops rh = some s → Inv s := by
  induction ops with
  | nil =>
    intro rh s hi h
    simp only [runOps, Option.some.injEq] at h
    rw [← h]
    exact hi
  | cons op ops ih =>
    intro rh s hi h
    unfold runOps at h
    cases hrun : op.run rh with
    | none => rw [hrun] at h; simp at h
    | some o =>
      obtain ⟨r, rh1⟩ := o
      rw [hrun] at h
      simp only at h
      split_ifs at h with ha
      exact ih rh1 s (Inv_run op rh r rh1 hi hrun ha) h

/-- C19 as stated fails on the well-formed stream `exEmptyListThen`: after open,
`riff_seekLevelSub` (which returns `RIFF_ERROR_ICSIZE`) and `riff_levelParent`
(which returns success) the session has `c_pos = 12` and `c_size = 4`. -/
theorem offset_invariant_fails :
    (riff_open_file riff_handleAllocate exEmptyListThen 0 0).1 = RIFF_ERROR_NONE ∧
    (riff_seekLevelSub exEmptyListThenOpen).1 = RIFF_ERROR_ICSIZE ∧
    (riff_levelParent (riff_seekLevelSub exEmptyListThenOpen).2).1 = RIFF_ERROR_NONE ∧
    (riff_levelParent (riff_seekLevelSub exEmptyListThenOpen).2).2.c_pos = 12 ∧
    (riff_levelParent (riff_seekLevelSub exEmptyListThenOpen).2).2.c_size = 4 ∧
    ¬ ((riff_levelParent (riff_seekLevelSub exEmptyListThenOpen).2).2.c_pos ≤
        (riff_levelParent (riff_seekLevelSub exEmptyListThenOpen).2).2.c_size) :=
  ⟨by decide, by decide, by decide, by decide, by decide, by decide⟩

/-- C19 (amended): the offset invariant along error-free navigation.  In every
session reached from a successful open (whose outer bound `pos_start + 8 +
h_size` does not exceed `2^63`, so that no position wraps) by a finite sequence
of public operations none of which reported an error (no code other than
success, `RIFF_ERROR_EOC`, `RIFF_ERROR_EOCL`, `RIFF_ERROR_EXDAT` and the -1 of
`riff_levelParent`; no -1 from a counter), `c_pos <= c_size` holds. -/
theorem offset_invariant (f : List Byte) (ftell size : Nat) (ops : List Op) (s : riff_handle)
    (hopen : (riff_open_file riff_handleAllocate f ftell size).1 = RIFF_ERROR_NONE)
    (hlim : (riff_open_file riff_handleAllocate f ftell size).2.pos_start + 8 +
      (riff_open_file riff_handleAllocate f ftell size).2.h_size ≤ 2 ^ 63)
    (hrun : runOps ops (riff_open_file riff_handleAllocate f ftell size).2 = some s) :
    s.c_pos ≤ s.c_size := by
  have h0 : Inv (riff_open_file riff_handleAllocate f ftell size).2 := by
    unfold riff_open_file at hopen hlim ⊢
    exact Inv_readHeader _ (show (0 : Nat) ≤ 2 ^ 62 from Nat.zero_le _) rfl hopen hlim
  exact (Inv_runOps ops _ s h0 hrun).pos_le

/-- C19 (amended) on `exNested`: after descending, reading, ascending, seeking,
rewinding and counting, `c_pos <= c_size`. -/
theorem offset_invariant_witness : exNestedRun.c_pos ≤ exNestedRun.c_size :=
  offset_invariant exNested 0 0 exNestedOps exNestedRun (by decide) (by decide) (by decide)

/-- On no consistent session whose current chunk has the declared size 4 does
`riff_seekLevelSub` return success: the header it reads behind the type tag
starts at the end of the list and cannot fit into it. -/
theorem riff_seekLevelSub_empty_never_succeeds (rh : riff_handle) (hi : Inv rh)
    (h4 : rh.c_size = 4) : (riff_seekLevelSub rh).1 ≠ RIFF_ERROR_NONE := by
  intro hsub
  obtain ⟨ht, hs⟩ := seekLevelSub_pass rh hsub
  rw [seekLevelSub_eq rh ht hs] at hsub
  obtain ⟨f1, f2, f3, f4⟩ := subStart_frame rh
  have hp := subStart_pos rh hi
  have he := hi.end_le
  split_ifs at hsub with hill
  · exact absurd hsub (show ¬ (RIFF_ERROR_ILLID = RIFF_ERROR_NONE) by decide)
  · obtain ⟨a0, a1, a2, a3, s0, s1, s2, s3, -, -, -, hbound⟩ := readChunkHeader_none _ hsub
    apply hbound
    have hb : enclosingBound (stack_push
        { (read_file (subStart rh) 4).2 with pos := add64 (subStart rh).pos 4 }
        (typeBuf (read_file (subStart rh) 4).1)) =
        add64 (add64 (subStart rh).c_pos_start 8) (subStart rh).c_size := rfl
    have hx : (stack_push
        { (read_file (subStart rh) 4).2 with pos := add64 (subStart rh).pos 4 }
        (typeBuf (read_file (subStart rh) 4).1)).pos = add64 (subStart rh).pos 4 := rfl
    rw [hb, hx, f2, f3, hp, h4, and_one_eq_mod]
    have hsz := convUInt32LE_lt s0 s1 s2 s3
    simp only [add64]
    omega

/-! ## The cursor and the channel; the cursor after a rejected chunk -/

/-- C21, evaluated on three sessions.  On `exTruncated` open succeeds with
`pos = fpos = 20`, and `riff_seekNextChunk` then gets two of its eight header
bytes, returns `RIFF_ERROR_EOF` and leaves `pos = 24` with the channel at 26.
On `exShortType` open succeeds with `pos = fpos = 20`, and `riff_seekLevelSub`
gets two of the four bytes of the type tag, returns `RIFF_ERROR_ILLID` and
leaves `pos = 24` with the channel at 22.  On `exEmbedded`, opened with the
stream at offset 4, open succeeds and leaves `pos = 20` with the channel at
24. -/
theorem cursor_channel_mismatch :
    ((riff_open_file riff_handleAllocate exTruncated 0 0).1 = RIFF_ERROR_NONE ∧
     exTruncatedOpen.pos = 20 ∧ exTruncatedOpen.fpos = 20 ∧
     (riff_seekNextChunk exTruncatedOpen).1 = RIFF_ERROR_EOF ∧
     (riff_seekNextChunk exTruncatedOpen).2.pos = 24 ∧
     (riff_seekNextChunk exTruncatedOpen).2.fpos = 26) ∧
    ((riff_open_file riff_handleAllocate exShortType 0 0).1 = RIFF_ERROR_NONE ∧
     exShortTypeOpen.pos = 20 ∧ exShortTypeOpen.fpos = 20 ∧
     (riff_seekLevelSub exShortTypeOpen).1 = RIFF_ERROR_ILLID ∧
     (riff_seekLevelSub exShortTypeOpen).2.pos = 24 ∧
     (riff_seekLevelSub exShortTypeOpen).2.fpos = 22) ∧
    ((riff_open_file riff_handleAllocate exEmbedded 4 0).1 = RIFF_ERROR_NONE ∧
     (riff_open_file riff_handleAllocate exEmbedded 4 0).2.pos = 20 ∧
     (riff_open_file riff_handleAllocate exEmbedded 4 0).2.fpos = 24) :=
  ⟨⟨by decide, by decide, by decide, by decide, by decide, by decide⟩,
   ⟨by decide, by decide, by decide, by decide, by decide, by decide⟩,
   ⟨by decide, by decide, by decide⟩⟩

/-- When `riff_seekNextChunk` returns `RIFF_ERROR_ICSIZE`, the cursor it leaves
is not beyond the bound of the enclosing list: the header is only read when it
fits. -/
theorem seekNextChunk_icsize_pos_le (rh : riff_handle)
    (h : (riff_seekNextChunk rh).1 = RIFF_ERROR_ICSIZE) :
    (riff_seekNextChunk rh).2.pos ≤ enclosingBound rh := by
  unfold riff_seekNextChunk at h ⊢
  simp only [RIFF_CHUNK_DATA_OFFSET, seek_file] at h ⊢
  split_ifs at h ⊢ with h1 h2
  · exact absurd h (show ¬ (RIFF_ERROR_EXDAT = RIFF_ERROR_ICSIZE) by decide)
  · exact absurd h (show ¬ (RIFF_ERROR_EOCL = RIFF_ERROR_ICSIZE) by decide)
  · by_cases h8 : (read_file ({ rh with
        pos := add64 (add64 (add64 rh.c_pos_start 8) rh.c_size) rh.pad,
        c_pos := 0,
        fpos := add64 (add64 (add64 rh.c_pos_start 8) rh.c_size) rh.pad } : riff_handle)
        8).1.length = 8
    · obtain ⟨a0, a1, a2, a3, s0, s1, s2, s3, hl⟩ := list_length_eight _ h8
      rw [readChunkHeader_eq _ a0 a1 a2 a3 s0 s1 s2 s3 hl]
      show add64 (add64 (add64 (add64 rh.c_pos_start 8) rh.c_size) rh.pad) 8 ≤ enclosingBound rh
      exact Nat.not_lt.mp h1
    · rw [readChunkHeader_short _ h8] at h
      exact absurd h (show ¬ (RIFF_ERROR_EOF = RIFF_ERROR_ICSIZE) by decide)

/-- C22, evaluated on the well-formed stream `exEmptyListThen` right after open.
The session satisfies the containment invariant: it is at depth 0 and the
current chunk, the list of size 4 at offset 12, ends at 24, within the outer
bound 36.  `riff_seekLevelSub` returns `RIFF_ERROR_ICSIZE`; the bound used for
that check is the end of the pushed list, 24, and the cursor is left at 32. -/
theorem riff_seekLevelSub_overrun :
    (riff_open_file riff_handleAllocate exEmptyListThen 0 0).1 = RIFF_ERROR_NONE ∧
    exEmptyListThenOpen.ls = [] ∧
    exEmptyListThenOpen.c_pos_start + 8 + exEmptyListThenOpen.c_size +
      exEmptyListThenOpen.pad = 24 ∧
    exEmptyListThenOpen.pos_start + 8 + exEmptyListThenOpen.h_size = 36 ∧
    (riff_seekLevelSub exEmptyListThenOpen).1 = RIFF_ERROR_ICSIZE ∧
    enclosingBound (riff_seekLevelSub exEmptyListThenOpen).2 = 24 ∧
    (riff_seekLevelSub exEmptyListThenOpen).2.pos = 32 ∧
    ¬ ((riff_seekLevelSub exEmptyListThenOpen).2.pos ≤
        enclosingBound (riff_seekLevelSub exEmptyListThenOpen).2) :=
  ⟨by decide, by decide, by decide, by decide, by decide, by decide, by decide, by decide⟩

/-! ## The cursor equation -/

theorem headerState_cursor (x : riff_handle) (a0 a1 a2 a3 s0 s1 s2 s3 : Byte) :
    (headerState x a0 a1 a2 a3 s0 s1 s2 s3).pos =
      cursorSum (headerState x a0 a1 a2 a3 s0 s1 s2 s3) := by
  show add64 x.pos 8 = add64 (add64 x.pos 8) 0
  simp only [add64]
  omega

theorem readChunkHeader_cursor (x : riff_handle)
    (h : (riff_readChunkHeader x).1 = RIFF_ERROR_NONE) :
    (riff_readChunkHeader x).2.pos = cursorSum (riff_readChunkHeader x).2 := by
  obtain ⟨a0, a1, a2, a3, s0, s1, s2, s3, -, hq, -, -⟩ := readChunkHeader_none x h
  rw [hq]
  exact headerState_cursor x a0 a1 a2 a3 s0 s1 s2 s3

theorem readInChunk_cursor (rh : riff_handle) (k : Nat) (h : rh.pos = cursorSum rh) :
    (riff_readInChunk rh k).2.pos = cursorSum (riff_readInChunk rh k).2 := by
  have e : cursorSum (riff_readInChunk rh k).2 =
      add64 (add64 rh.c_pos_start 8) (add64 rh.c_pos (riff_readInChunk rh k).1.length) := rfl
  rw [e, readInChunk_pos, h]
  simp only [cursorSum, add64, RIFF_CHUNK_DATA_OFFSET]
  omega

theorem seekNextChunk_cursor (rh : riff_handle)
    (h : (riff_seekNextChunk rh).1 = RIFF_ERROR_NONE) :
    (riff_seekNextChunk rh).2.pos = cursorSum (riff_seekNextChunk rh).2 := by
  unfold riff_seekNextChunk at h ⊢
  simp only [RIFF_CHUNK_DATA_OFFSET] at h ⊢
  split_ifs at h ⊢ with h1 h2
  · exact absurd h (show ¬ (RIFF_ERROR_EXDAT = RIFF_ERROR_NONE) by decide)
  · exact absurd h (show ¬ (RIFF_ERROR_EOCL = RIFF_ERROR_NONE) by decide)
  · exact readChunkHeader_cursor _ h

theorem seekLevelStart_cursor (rh : riff_handle)
    (h : (riff_seekLevelStart rh).1 = RIFF_ERROR_NONE) :
    (riff_seekLevelStart rh).2.pos = cursorSum (riff_seekLevelStart rh).2 := by
  unfold riff_seekLevelStart at h ⊢
  exact readChunkHeader_cursor _ h

theorem seekLevelSub_cursor (rh : riff_handle)
    (h : (riff_seekLevelSub rh).1 = RIFF_ERROR_NONE) :
    (riff_seekLevelSub rh).2.pos = cursorSum (riff_seekLevelSub rh).2 := by
  obtain ⟨ht, hs⟩ := seekLevelSub_pass rh h
  rw [seekLevelSub_eq rh ht hs] at h ⊢
  split_ifs at h ⊢ with hill
  · exact absurd h (show ¬ (RIFF_ERROR_ILLID = RIFF_ERROR_NONE) by decide)
  · exact readChunkHeader_cursor _ h

theorem stack_pop_cursor (rh : riff_handle) (hp : rh.pos < 2 ^ 64) (hl : 0 < rh.ls.length) :
    (stack_pop rh).pos = cursorSum (stack_pop rh) := by
  cases hls : rh.ls with
  | nil => rw [hls] at hl; exact absurd hl (by decide)
  | cons f rest =>
    rw [stack_pop_cons rh f rest hls]
    show rh.pos = add64 (add64 f.c_pos_start 8) (sub64 (sub64 rh.pos f.c_pos_start) 8)
    simp only [add64, sub64]
    omega

theorem levelParent_cursor (rh : riff_handle) (hp : rh.pos < 2 ^ 64)
    (h : (riff_levelParent rh).1 = RIFF_ERROR_NONE) :
    (riff_levelParent rh).2.pos = cursorSum (riff_levelParent rh).2 := by
  unfold riff_levelParent at h ⊢
  split_ifs at h ⊢ with h0
  · exact absurd h (show ¬ ((-1 : Int) = RIFF_ERROR_NONE) by decide)
  · exact stack_pop_cursor rh hp (Nat.lt_of_not_le h0)

theorem seekChunkStart_cursor (rh : riff_handle) :
    (riff_seekChunkStart rh).2.pos = cursorSum (riff_seekChunkStart rh).2 := by
  show add64 rh.c_pos_start 8 = add64 (add64 rh.c_pos_start 8) 0
  simp only [add64]
  omega

theorem seekInChunk_cursor (rh : riff_handle) (off : Nat)
    (h : (riff_seekInChunk rh off).1 = RIFF_ERROR_NONE) :
    (riff_seekInChunk rh off).2.pos = cursorSum (riff_seekInChunk rh off).2 := by
  unfold riff_seekInChunk at h ⊢
  split_ifs at h ⊢ with h0
  · exact absurd h (show ¬ (RIFF_ERROR_EOC = RIFF_ERROR_NONE) by decide)
  · rfl

theorem seekLevelParentStart_cursor (rh : riff_handle)
    (h : (riff_seekLevelParentStart rh).1 = RIFF_ERROR_NONE) :
    (riff_seekLevelParentStart rh).2.pos = cursorSum (riff_seekLevelParentStart rh).2 := by
  unfold riff_seekLevelParentStart at h ⊢
  generalize riff_levelParent rh = p at h ⊢
  obtain ⟨r, q⟩ := p
  simp only at h ⊢
  split_ifs at h ⊢ with h0
  · exact absurd h h0
  · exact seekChunkStart_cursor q

theorem seekLevelParentNext_cursor (rh : riff_handle)
    (h : (riff_seekLevelParentNext rh).1 = RIFF_ERROR_NONE) :
    (riff_seekLevelParentNext rh).2.pos = cursorSum (riff_seekLevelParentNext rh).2 := by
  unfold riff_seekLevelParentNext at h ⊢
  generalize riff_levelParent rh = p at h ⊢
  obtain ⟨r, q⟩ := p
  simp only at h ⊢
  split_ifs at h ⊢ with h0
  · exact absurd h h0
  · exact seekNextChunk_cursor q h

theorem rewind_cursor (rh : riff_handle)
    (h : (riff_rewind rh).1 = RIFF_ERROR_NONE) :
    (riff_rewind rh).2.pos = cursorSum (riff_rewind rh).2 := by
  unfold riff_rewind at h ⊢
  exact seekLevelStart_cursor _ h

theorem readHeader_cursor (rh : riff_handle)
    (h : (riff_readHeader rh).1 = RIFF_ERROR_NONE) :
    (riff_readHeader rh).2.pos = cursorSum (riff_readHeader rh).2 := by
  obtain ⟨i0, i1, i2, i3, s0, s1, s2, s3, t0, t1, t2, t3, h12, hid⟩ := readHeader_none rh h
  obtain ⟨c1, c2, c3, c4⟩ := readHeader_cases rh i0 i1 i2 i3 s0 s1 s2 s3 t0 t1 t2 t3 h12 hid
    (riff_readChunkHeader
      (outerState rh ⟨i0, i1, i2, i3⟩ (convUInt32LE s0 s1 s2 s3) ⟨t0, t1, t2, t3⟩)) rfl
  generalize outerState rh ⟨i0, i1, i2, i3⟩ (convUInt32LE s0 s1 s2 s3) ⟨t0, t1, t2, t3⟩ = x
    at c1 c2 c3 c4
  by_cases hp : (riff_readChunkHeader x).1 = RIFF_ERROR_NONE
  · have hx := readChunkHeader_cursor x hp
    by_cases hd : (riff_readChunkHeader x).2.h_size = 0xFFFFFFFF ∧
        (riff_readChunkHeader x).2.c_id = tagDs64
    · by_cases h8 : (riff_readInChunk (riff_readChunkHeader x).2 8).1.length = 8
      · obtain ⟨l0, l1, l2, l3, u0, u1, u2, u3, hl⟩ := list_length_eight _ h8
        rw [c3 hp hd l0 l1 l2 l3 u0 u1 u2 u3 hl, sizeCompare_snd]
        exact readInChunk_cursor (riff_readChunkHeader x).2 8 hx
      · rw [c4 hp hd h8] at h
        exact absurd h (show ¬ (RIFF_ERROR_ICSIZE = RIFF_ERROR_NONE) by decide)
    · rw [c2 hp hd, sizeCompare_snd]
      exact hx
  · rw [c1 hp] at h
    exact absurd h hp

/-- C23, as worded, fails for a read that follows a rejected operation.  On
`exBadType` open succeeds and the session satisfies the equation, at
`pos = 20`.  `riff_seekLevelSub` reads the type tag, rejects it with
`RIFF_ERROR_ILLID` and leaves `pos = 24` with `c_pos = 0`; the subsequent
`riff_readInChunk` for 2 bytes delivers the payload bytes 05 06 at offsets 4
and 5 and leaves `pos = 26`, while `c_pos_start + 8 + c_pos = 12 + 8 + 2`. -/
theorem cursor_equation_fails_after_reject :
    (riff_open_file riff_handleAllocate exBadType 0 0).1 = RIFF_ERROR_NONE ∧
    exBadTypeOpen.pos = cursorSum exBadTypeOpen ∧
    (riff_seekLevelSub exBadTypeOpen).1 = RIFF_ERROR_ILLID ∧
    (riff_readInChunk (riff_seekLevelSub exBadTypeOpen).2 2).1 = [5, 6] ∧
    (riff_readInChunk (riff_seekLevelSub exBadTypeOpen).2 2).2.pos = 26 ∧
    (riff_readInChunk (riff_seekLevelSub exBadTypeOpen).2 2).2.c_pos_start = 12 ∧
    (riff_readInChunk (riff_seekLevelSub exBadTypeOpen).2 2).2.c_pos = 2 ∧
    (riff_readInChunk (riff_seekLevelSub exBadTypeOpen).2 2).2.pos ≠
      cursorSum (riff_readInChunk (riff_seekLevelSub exBadTypeOpen).2 2).2 :=
  ⟨by decide, by decide, by decide, by decide, by decide, by decide, by decide, by decide⟩

/-- C23 (amended): internal cursor consistency, `pos = c_pos_start + 8 + c_pos`
with the sum taken in `size_t`.  The equation holds after every
`riff_readHeader` that returns success; it holds after every public navigation
operation (`riff_seekInChunk`, `riff_seekNextChunk`, `riff_seekChunkStart`,
`riff_seekLevelStart`, `riff_seekLevelSub`, `riff_levelParent`, `riff_rewind`,
`riff_seekLevelParentStart`, `riff_seekLevelParentNext`) that returns
`RIFF_ERROR_NONE`, from every session whose `pos` is a `size_t` value; and
every `riff_readInChunk` called in a session that satisfies it leaves a session
that satisfies it. -/
theorem cursor_equation :
    (∀ rh : riff_handle, (riff_readHeader rh).1 = RIFF_ERROR_NONE →
      (riff_readHeader rh).2.pos = cursorSum (riff_readHeader rh).2) ∧
    (∀ (op : Op) (rh rh' : riff_handle) (r : Int), op.isNavigation = true →
      rh.pos < 2 ^ 64 → op.run rh = some (r, rh') → r = RIFF_ERROR_NONE →
      rh'.pos = cursorSum rh') ∧
    (∀ (rh : riff_handle) (k : Nat), rh.pos = cursorSum rh →
      (riff_readInChunk rh k).2.pos = cursorSum (riff_readInChunk rh k).2) := by
  refine ⟨readHeader_cursor, ?_, fun rh k h => readInChunk_cursor rh k h⟩
  intro op rh rh' r hnav hp hrun hr
  subst hr
  cases op with
  | seekInChunk off =>
    have e : riff_seekInChunk rh off = (RIFF_ERROR_NONE, rh') := Option.some.inj hrun
    have h1 := seekInChunk_cursor rh off (by rw [e])
    rw [e] at h1; exact h1
  | seekNextChunk =>
    have e : riff_seekNextChunk rh = (RIFF_ERROR_NONE, rh') := Option.some.inj hrun
    have h1 := seekNextChunk_cursor rh (by rw [e])
    rw [e] at h1; exact h1
  | seekChunkStart =>
    have e : riff_seekChunkStart rh = (RIFF_ERROR_NONE, rh') := Option.some.inj hrun
    have h1 := seekChunkStart_cursor rh
    rw [e] at h1; exact h1
  | seekLevelStart =>
    have e : riff_seekLevelStart rh = (RIFF_ERROR_NONE, rh') := Option.some.inj hrun
    have h1 := seekLevelStart_cursor rh (by rw [e])
    rw [e] at h1; exact h1
  | seekLevelSub =>
    have e : riff_seekLevelSub rh = (RIFF_ERROR_NONE, rh') := Option.some.inj hrun
    have h1 := seekLevelSub_cursor rh (by rw [e])
    rw [e] at h1; exact h1
  | levelParent =>
    have e : riff_levelParent rh = (RIFF_ERROR_NONE, rh') := Option.some.inj hrun
    have h1 := levelParent_cursor rh hp (by rw [e])
    rw [e] at h1; exact h1
  | seekLevelParentStart =>
    have e : riff_seekLevelParentStart rh = (RIFF_ERROR_NONE, rh') := Option.some.inj hrun
    have h1 := seekLevelParentStart_cursor rh (by rw [e])
    rw [e] at h1; exact h1
  | seekLevelParentNext =>
    have e : riff_seekLevelParentNext rh = (RIFF_ERROR_NONE, rh') := Option.some.inj hrun
    have h1 := seekLevelParentNext_cursor rh (by rw [e])
    rw [e] at h1; exact h1
  | rewind =>
    have e : riff_rewind rh = (RIFF_ERROR_NONE, rh') := Option.some.inj hrun
    have h1 := rewind_cursor rh (by rw [e])
    rw [e] at h1; exact h1
  | readInChunk k => exact absurd hnav Bool.false_ne_true
  | levelValidate fuel => exact absurd hnav Bool.false_ne_true
  | fileValidate fuel => exact absurd hnav Bool.false_ne_true
  | amountOfChunksInLevel fuel => exact absurd hnav Bool.false_ne_true
  | amountOfChunksInLevelWithID fuel id => exact absurd hnav Bool.false_ne_true

/-- C23 (amended), applied: open of `exDs64`, which reads 8 payload bytes of the
first chunk, the descend into the list of `exList`, and a read of 4 bytes in
the first chunk of `exWave`. -/
theorem cursor_equation_witness :
    ((riff_open_file riff_handleAllocate exDs64 0 0).1 = RIFF_ERROR_NONE ∧
      exDs64Open.pos = cursorSum exDs64Open) ∧
    ((riff_seekLevelSub exListOpen).1 = RIFF_ERROR_NONE ∧
      (riff_seekLevelSub exListOpen).2.pos = cursorSum (riff_seekLevelSub exListOpen).2) ∧
    (exWaveOpen.pos = cursorSum exWaveOpen ∧
      (riff_readInChunk exWaveOpen 4).2.pos = cursorSum (riff_readInChunk exWaveOpen 4).2) :=
  ⟨⟨by decide,
    cursor_equation.1
      { riff_handleAllocate with fh := exDs64, fpos := 0, size := 0, pos_start := 0 }
      (by decide)⟩,
   ⟨by decide,
    cursor_equation.2.1 Op.seekLevelSub exListOpen (riff_seekLevelSub exListOpen).2
      (riff_seekLevelSub exListOpen).1 rfl (by decide) rfl (by decide)⟩,
   ⟨by decide, cursor_equation.2.2 exWaveOpen 4 (by decide)⟩⟩

/-! ## Progress and termination of the level loops -/

end Riff
